import Mathlib

/-!
Verification development for the educhain-mcp repository
(src/src/generate_content.py and src/src/mcp_server.py).

The embedding models Python dictionaries as ordered association lists of
JSON values, the filesystem as a partial map from paths to file contents,
`datetime.now().isoformat()` as an explicit `now` argument, and Python
exceptions as an `Except` layer.  All definitions are executable.
-/

/-- JSON values as produced and consumed by the repository.  Every number the
program serializes is an integer, so numbers are modelled as `Int` (floating
point values never occur in any bundle). -/
inductive J where
  | null : J
  | bool : Bool → J
  | num : Int → J
  | str : String → J
  | arr : List J → J
  | obj : List (String × J) → J

/-- Keys of a JSON object field list, in order. -/
def jkeys (kv : List (String × J)) : List String := kv.map Prod.fst

/-- Lookup in a JSON object field list (first match; Python dicts parsed from
JSON have unique keys). -/
def jlookup : List (String × J) → String → Option J
  | [], _ => none
  | (k, v) :: rest, key => if k = key then some v else jlookup rest key

/-- Python dict assignment `d[k] = v`: replace the value at an existing key
(keeping its position; parsed dicts have unique keys), otherwise append the
new pair at the end. -/
def setKey : List (String × J) → String → J → List (String × J)
  | [], key, v => [(key, v)]
  | (k0, v0) :: rest, key, v =>
    if k0 = key then (key, v) :: rest else (k0, v0) :: setKey rest key v

/-- Python truthiness of a JSON-decoded value (`if existing_data ...`). -/
def truthy : J → Bool
  | .null => false
  | .bool b => b
  | .num n => n != 0
  | .str s => !s.isEmpty
  | .arr l => !l.isEmpty
  | .obj kv => !kv.isEmpty

/-- Python exceptions raised by the modelled code. -/
inductive PyErr where
  | typeError : String → PyErr
  | valueError : String → PyErr
deriving DecidableEq, Repr

/-- Python membership test `needle in data` on a JSON-decoded value:
objects test their keys, lists test element equality against the string,
strings test for a substring; numbers, booleans and null raise `TypeError`. -/
def pyContains (needle : String) : J → Except PyErr Bool
  | .obj kv => .ok (kv.any (fun p => p.1 = needle))
  | .arr l => .ok (l.any (fun x => match x with | .str s => s = needle | _ => false))
  | .str s => .ok (decide (needle.toList <:+: s.toList))
  | _ => .error (.typeError "argument of type is not iterable")

/-- The five embedded sample MCQs of `generate_fallback_mcqs`
(src/src/mcp_server.py lines 285-321; generate_content.py holds an identical
copy). -/
def sample_mcqs : List (List (String × J)) := [
  [("id", .num 1),
   ("question", .str "What is the correct way to assign a value to a variable in Python?"),
   ("options", .arr [.str "x = 5", .str "x := 5", .str "x == 5", .str "x <- 5"]),
   ("correct_answer", .str "x = 5"),
   ("explanation", .str "In Python, a variable is assigned a value using the \x27=\x27 operator, e.g., `x = 5`.")],
  [("id", .num 2),
   ("question", .str "What does the print() function do in Python?"),
   ("options", .arr [.str "Saves a file", .str "Displays output", .str "Creates a loop", .str "Defines a variable"]),
   ("correct_answer", .str "Displays output"),
   ("explanation", .str "The print() function outputs text or values to the console.")],
  [("id", .num 3),
   ("question", .str "What is the output of: `for i in range(3): print(i)`?"),
   ("options", .arr [.str "0, 1, 2", .str "1, 2, 3", .str "0, 1, 2, 3", .str "1, 2"]),
   ("correct_answer", .str "0, 1, 2"),
   ("explanation", .str "The range(3) generates numbers from 0 to 2, which are printed by the loop.")],
  [("id", .num 4),
   ("question", .str "Which data type is used for text in Python?"),
   ("options", .arr [.str "int", .str "float", .str "str", .str "bool"]),
   ("correct_answer", .str "str"),
   ("explanation", .str "The \x27str\x27 data type is used for text (strings) in Python.")],
  [("id", .num 5),
   ("question", .str "What symbol is used for assignment in Python?"),
   ("options", .arr [.str "==", .str "=", .str ":", .str "+"]),
   ("correct_answer", .str "="),
   ("explanation", .str "The \x27=\x27 symbol assigns a value to a variable in Python.")]]

/-- Positions of the Python list `sample * (num // len(sample) + 1)` truncated
with `[:num]`: list replication copies references, so position `p` of the
truncated list holds a reference to base sample `p % len(sample)`. -/
def cycleRefs (len num : Nat) : List Nat := (List.range num).map (fun p => p % len)

/-- The in-place id update `for i, q in enumerate(questions, 1): q["id"] = i`
acting through the shared references: updating the item at position `p`
mutates base dict `p % len(base)`, so later positions overwrite the ids set
for earlier positions that alias the same dict. -/
def idUpdateLoop (base : List (List (String × J))) (num : Nat) : List (List (String × J)) :=
  (List.range num).foldl
    (fun st p => st.set (p % base.length) (setKey (st.getD (p % base.length) []) "id" (.num ((p : Int) + 1))))
    base

/-- `generate_fallback_mcqs` from src/src/mcp_server.py lines 280-336
(generate_content.py lines 192-255 is identical up to the `note` string).
`datetime.now().isoformat()` is modelled by the explicit `now` argument. -/
def generate_fallback_mcqs (topic : String) (num_questions : Nat) (now : String) : J :=
  let final := idUpdateLoop sample_mcqs num_questions
  let questions := (cycleRefs sample_mcqs.length num_questions).map (fun r => J.obj (final.getD r []))
  J.obj [("topic", .str topic),
         ("questions", .arr questions),
         ("total_questions", .num num_questions),
         ("generated_at", .str now),
         ("generated_by", .str "Fallback System"),
         ("note", .str "This is fallback content. Run generate_content.py for AI-generated content.")]

/-- The list of question objects of an MCQ bundle. -/
def questionObjs (b : J) : List J :=
  match b with
  | .obj kv => match jlookup kv "questions" with
    | some (.arr l) => l
    | _ => []
  | _ => []

/-- The integer `id` field of each item in a list of JSON objects
(0 when absent, which never happens on the bundles under study). -/
def itemIds (items : List J) : List Int :=
  items.map (fun q => match q with
    | .obj kv => match jlookup kv "id" with
      | some (.num n) => n
      | _ => 0
    | _ => 0)

/-- `generate_fallback_lesson_plan` from src/src/mcp_server.py lines 338-368
(generate_content.py lines 257-295 is identical up to the `note` string). -/
def generate_fallback_lesson_plan (topic duration grade_level : String) (now : String) : J :=
  J.obj [("title", .str ("Introduction to " ++ topic)),
         ("topic", .str topic),
         ("duration", .str duration),
         ("grade_level", .str grade_level),
         ("learning_objectives", .arr
           [.str ("Understand basic concepts of " ++ topic),
            .str "Write simple programs using variables and loops",
            .str "Use the print function to display output"]),
         ("lesson_structure", .arr
           [.obj [("phase", .str "Introduction"),
                  ("duration", .str "10 minutes"),
                  ("activities", .arr [.str ("Overview of " ++ topic ++ " and its importance")])],
            .obj [("phase", .str "Main Content"),
                  ("duration", .str "40 minutes"),
                  ("activities", .arr [.str "Explain variables and print function",
                                       .str "Practice writing simple for loops"])]]),
         ("generated_at", .str now),
         ("generated_by", .str "Fallback System"),
         ("note", .str "This is fallback content. Run generate_content.py for AI-generated content.")]

/-- The three embedded sample flashcards of `generate_fallback_flashcards`
(src/src/mcp_server.py lines 375-394). -/
def sample_flashcards : List (List (String × J)) := [
  [("id", .num 1),
   ("front", .str "How do you assign a value to a variable in Python?"),
   ("back", .str "Use the \x27=\x27 operator, e.g., `x = 5`."),
   ("category", .str "Variables")],
  [("id", .num 2),
   ("front", .str "What does the print() function do?"),
   ("back", .str "It displays text or values to the console, e.g., `print(\x27Hello\x27)`."),
   ("category", .str "Output")],
  [("id", .num 3),
   ("front", .str "What is the syntax for a basic for loop in Python?"),
   ("back", .str "`for i in range(n):`, e.g., `for i in range(3): print(i)`."),
   ("category", .str "Loops")]]

/-- `generate_fallback_flashcards` from src/src/mcp_server.py lines 370-410
(generate_content.py lines 297-344 is identical up to the `note` string);
same list-replication and id-renumbering shape as the MCQ fallback. -/
def generate_fallback_flashcards (topic : String) (num_cards : Nat) (now : String) : J :=
  let final := idUpdateLoop sample_flashcards num_cards
  let flashcards := (cycleRefs sample_flashcards.length num_cards).map (fun r => J.obj (final.getD r []))
  J.obj [("topic", .str topic),
         ("flashcards", .arr flashcards),
         ("count", .num num_cards),
         ("difficulty", .str "Simple"),
         ("generated_at", .str now),
         ("generated_by", .str "Fallback System"),
         ("note", .str "This is fallback content. Run generate_content.py for AI-generated content.")]

/-- The list of flashcard objects of a flashcard bundle. -/
def flashcardObjs (b : J) : List J :=
  match b with
  | .obj kv => match jlookup kv "flashcards" with
    | some (.arr l) => l
    | _ => []
  | _ => []

/-- The `front` field of each item in a list of JSON objects. -/
def itemFronts (items : List J) : List (Option J) :=
  items.map (fun q => match q with
    | .obj kv => jlookup kv "front"
    | _ => none)

/-- The top-level field of a bundle, as an `Option`. -/
def bundleField (b : J) : String → Option J
  | key => match b with
    | .obj kv => jlookup kv key
    | _ => none

/-- The `lesson_structure` list of a lesson plan bundle. -/
def lessonStructure (b : J) : List J :=
  match bundleField b "lesson_structure" with
  | some (.arr l) => l
  | _ => []

/-- The `phase` and `duration` fields of each entry of a lesson plan bundle's
`lesson_structure` list. -/
def phaseInfo (b : J) : List (Option J × Option J) :=
  (lessonStructure b).map (fun ph => match ph with
    | .obj kv => (jlookup kv "phase", jlookup kv "duration")
    | _ => (none, none))

/-- The field list of a JSON object (empty for non-objects). -/
def objFields : J → List (String × J)
  | .obj kv => kv
  | _ => []

/-- Outcome of one call to the external EduChain generation capability
inside `asyncio.wait_for`: a successful structured result (`model_dump()`
gives a field list), an exception raised by the call, or a timeout. -/
inductive CallOutcome where
  | ok : List (String × J) → CallOutcome
  | exc : String → CallOutcome
  | timeout : CallOutcome

/-- The body of `generate_mcqs` (src/src/generate_content.py lines 57-85):
the try block awaits the external call; on success the result dict is
updated with topic, total_questions, generated_at and generated_by
"EduChain with Google Gemini"; `except asyncio.TimeoutError` and
`except Exception` both return the fallback bundle.  The body therefore
always returns normally and never lets an exception escape. -/
def generate_mcqs_body (outcome : CallOutcome) (topic : String) (num : Nat) (now : String) : J :=
  match outcome with
  | .ok payload =>
      J.obj (setKey (setKey (setKey (setKey payload
        "topic" (.str topic))
        "total_questions" (.num num))
        "generated_at" (.str now))
        "generated_by" (.str "EduChain with Google Gemini"))
  | .timeout => generate_fallback_mcqs topic num now
  | .exc _ => generate_fallback_mcqs topic num now

/-- The tenacity retry loop `@retry(stop=stop_after_attempt(3), wait=wait_fixed(2))`:
run attempt `i`; if it raises, wait the fixed delay and rerun, up to the
given number of remaining re-attempts; the last attempt's exception
propagates.  (The fixed 2-unit wait has no observable effect in this
time-free model.) -/
def attemptLoop (f : Nat → Except String J) : Nat → Nat → Except String J
  | i, 0 => f i
  | i, n + 1 =>
    match f i with
    | .ok a => .ok a
    | .error _ => attemptLoop f (i + 1) n

/-- `stop_after_attempt(3)`: three attempts in total. -/
def tenacityRetry3 (f : Nat → Except String J) : Except String J := attemptLoop f 0 2

/-- The decorated `generate_mcqs` from src/src/generate_content.py lines
45-85: the tenacity decorator wraps the body, and the body catches every
exception internally, so each attempt returns normally (`Except.ok`).
`oracle i` is the outcome the external capability would produce on attempt
`i`. -/
def generate_mcqs_pipeline (oracle : Nat → CallOutcome) (topic : String) (num : Nat) (now : String) :
    Except String J :=
  tenacityRetry3 (fun i => .ok (generate_mcqs_body (oracle i) topic num now))

/-- The `generated_by` provenance field of a pipeline result. -/
def resultGeneratedBy {ε : Type} : Except ε J → Option J
  | .ok b => bundleField b "generated_by"
  | .error _ => none

/-- An oracle whose first attempt raises an exception and whose later
attempts would succeed: the scenario in which a retry policy that retries
exceptions would return a PRIMARY bundle. -/
def excThenOk : Nat → CallOutcome
  | 0 => .exc "rate limit"
  | _ + 1 => .ok [("questions", .arr []), ("generated_by", .str "EduChain with Google Gemini")]

/-- JSON whitespace (space, tab, newline, carriage return), identified by
code point. -/
def wsChar (c : Char) : Bool := c.toNat = 32 || c.toNat = 10 || c.toNat = 9 || c.toNat = 13

/-- Drop leading JSON whitespace. -/
def skipWs : List Char → List Char
  | [] => []
  | c :: cs => if wsChar c then skipWs cs else c :: cs

/-- The `indent * level` prefix written by `json.dump(..., indent=2)`. -/
def indentChars (lvl : Nat) : List Char := List.replicate (2 * lvl) ' '

/-- Lower-case hexadecimal digit. -/
def hexDigitChar (n : Nat) : Char := if n < 10 then Char.ofNat (48 + n) else Char.ofNat (87 + n)

/-- The four hex digits of a `\u00xx` control-character escape. -/
def lowHexDigits (n : Nat) : List Char :=
  ['0', '0', hexDigitChar (n / 16), hexDigitChar (n % 16)]

/-- How the Python json encoder with `ensure_ascii=False` writes one string
character: `"` and `\` and the five short control escapes get two-character
escapes, other control characters get a `\u00xx` escape, everything else is
written as itself. -/
def escapeChar (c : Char) : List Char :=
  if c = '\x22' then [ '\\', '\x22' ]
  else if c = '\\' then [ '\\', '\\' ]
  else if c = '\n' then [ '\\', 'n' ]
  else if c = '\r' then [ '\\', 'r' ]
  else if c = '\t' then [ '\\', 't' ]
  else if c = '\x08' then [ '\\', 'b' ]
  else if c = '\x0c' then [ '\\', 'f' ]
  else if c.toNat < 32 then '\\' :: 'u' :: lowHexDigits c.toNat
  else [c]

/-- Escape a whole string body. -/
def escapeList (s : List Char) : List Char := (s.map escapeChar).flatten

/-- A JSON string literal: quote, escaped body, quote. -/
def quoteStr (s : String) : List Char := '\x22' :: (escapeList s.toList ++ [ '\x22' ])

/-- Decimal digits of a natural number, most significant first (fueled so
that the definition is structural; `fuel > n` always suffices). -/
def natDigitsAux : Nat → Nat → List Char
  | 0, _ => []
  | fuel + 1, n =>
    if n < 10 then [Char.ofNat (48 + n)]
    else natDigitsAux fuel (n / 10) ++ [Char.ofNat (48 + n % 10)]

/-- Decimal digits of a natural number. -/
def natDigits (n : Nat) : List Char := natDigitsAux (n + 1) n

/-- How Python prints an integer. -/
def intDigits : Int → List Char
  | .ofNat n => natDigits n
  | .negSucc m => '-' :: natDigits (m + 1)

mutual

/-- `json.dump(data, f, indent=2, ensure_ascii=False)`: the characters
written for a value nested at indentation level `lvl`. -/
def printVal : Nat → J → List Char
  | _, .null => [ 'n', 'u', 'l', 'l' ]
  | _, .bool true => [ 't', 'r', 'u', 'e' ]
  | _, .bool false => [ 'f', 'a', 'l', 's', 'e' ]
  | _, .num n => intDigits n
  | _, .str s => quoteStr s
  | _, .arr [] => [ '[', ']' ]
  | lvl, .arr (x :: xs) =>
    '[' :: '\n' :: (printItems (lvl + 1) (x :: xs) ++ '\n' :: (indentChars lvl ++ [ ']' ]))
  | _, .obj [] => [ '\x7b', '\x7d' ]
  | lvl, .obj (p :: ps) =>
    '\x7b' :: '\n' :: (printFields (lvl + 1) (p :: ps) ++ '\n' :: (indentChars lvl ++ [ '\x7d' ]))

/-- Array elements, one per line at the given indent, separated by `,`. -/
def printItems : Nat → List J → List Char
  | _, [] => []
  | lvl, [x] => indentChars lvl ++ printVal lvl x
  | lvl, x :: y :: xs =>
    indentChars lvl ++ (printVal lvl x ++ ',' :: '\n' :: printItems lvl (y :: xs))

/-- Object members, one `"key": value` per line at the given indent,
separated by `,`. -/
def printFields : Nat → List (String × J) → List Char
  | _, [] => []
  | lvl, [(k, v)] => indentChars lvl ++ (quoteStr k ++ ':' :: ' ' :: printVal lvl v)
  | lvl, (k, v) :: q :: qs =>
    indentChars lvl ++ (quoteStr k ++ ':' :: ' ' :: (printVal lvl v ++ ',' :: '\n' :: printFields lvl (q :: qs)))
end

/-- `json.dumps`-style serialization of a value, as used by `json.dump` in
`save_to_json`/`save_json_file` and by `json.dumps(data, indent=2)` in the
server handlers. -/
def dumps (data : J) : String := String.mk (printVal 0 data)

/-- Decimal digit test by code point. -/
def isDigitChar (c : Char) : Bool := 48 ≤ c.toNat && c.toNat ≤ 57

/-- Longest digit prefix of the input and the remaining characters. -/
def takeDigits : List Char → List Char × List Char
  | [] => ([], [])
  | c :: cs =>
    if isDigitChar c then
      let p := takeDigits cs
      (c :: p.1, p.2)
    else ([], c :: cs)

/-- Value of a most-significant-first digit list. -/
def digitsToNat (l : List Char) : Nat := l.foldl (fun a c => 10 * a + (c.toNat - 48)) 0

/-- After an integer literal the next character must not extend it to a
longer number token (`json.load` would parse a float on `.`/`e`/`E`, which
is outside this model: no bundle contains one). -/
def numStop : List Char → Bool
  | [] => true
  | c :: _ => !(isDigitChar c || c = '.' || c = 'e' || c = 'E')

/-- Parse a JSON integer literal (floats are rejected: the repository never
serializes one). -/
def parseNum (s : List Char) : Option (J × List Char) :=
  match s with
  | [] => none
  | c :: cs =>
    if c = '-' then
      match takeDigits cs with
      | ([], _) => none
      | (d :: ds, r) =>
        if numStop r then some (.num (-(digitsToNat (d :: ds) : Int)), r) else none
    else
      match takeDigits (c :: cs) with
      | ([], _) => none
      | (d :: ds, r) =>
        if numStop r then some (.num (digitsToNat (d :: ds)), r) else none

/-- Hexadecimal digit value. -/
def hexVal (c : Char) : Option Nat :=
  if 48 ≤ c.toNat ∧ c.toNat ≤ 57 then some (c.toNat - 48)
  else if 97 ≤ c.toNat ∧ c.toNat ≤ 102 then some (c.toNat - 87)
  else if 65 ≤ c.toNat ∧ c.toNat ≤ 70 then some (c.toNat - 55)
  else none

/-- One-character JSON string escapes. -/
def unescape (e : Char) : Option Char :=
  if e = '\x22' then some '\x22'
  else if e = '\\' then some '\\'
  else if e = '/' then some '/'
  else if e = 'b' then some '\x08'
  else if e = 'f' then some '\x0c'
  else if e = 'n' then some '\n'
  else if e = 'r' then some '\r'
  else if e = 't' then some '\t'
  else none

/-- Parse a JSON string body after the opening quote, returning the decoded
characters and the input after the closing quote.  `\uXXXX` escapes decode
to the corresponding scalar (surrogate pairs are not modelled: the encoder
with `ensure_ascii=False` never emits them).  One fuel unit is spent per
decoded character, so `length + 1` fuel always suffices. -/
def parseStrBody : Nat → List Char → Option (List Char × List Char)
  | 0, _ => none
  | fuel + 1, s =>
    match s with
    | [] => none
    | c :: r =>
      if c = '\x22' then some ([], r)
      else if c = '\\' then
        match r with
        | [] => none
        | e :: r1 =>
          if e = 'u' then
            match r1 with
            | h1 :: h2 :: h3 :: h4 :: r2 =>
              match hexVal h1, hexVal h2, hexVal h3, hexVal h4 with
              | some a, some b, some c, some d =>
                let n := ((a * 16 + b) * 16 + c) * 16 + d
                if n < 55296 then
                  match parseStrBody fuel r2 with
                  | some (cs, r3) => some (Char.ofNat n :: cs, r3)
                  | none => none
                else none
              | _, _, _, _ => none
            | _ => none
          else
            match unescape e with
            | some uc =>
              match parseStrBody fuel r1 with
              | some (cs, r2) => some (uc :: cs, r2)
              | none => none
            | none => none
      else
        match parseStrBody fuel r with
        | some (cs, r2) => some (c :: cs, r2)
        | none => none

mutual

/-- Recursive-descent JSON value parser modelling `json.load`: skip
whitespace, dispatch on the first character, return the value and the rest
of the input.  Fueled so that the definition is structural; one unit is
spent per nesting step, and arrays/objects always consume at least one
character per element, so `length + 1` fuel suffices for any input the
printer produces. -/
def parseVal : Nat → List Char → Option (J × List Char)
  | 0, _ => none
  | fuel + 1, s =>
    match skipWs s with
    | [] => none
    | c :: cs =>
      if isDigitChar c || c = '-' then parseNum (c :: cs)
      else if c = '\x22' then
        match parseStrBody (cs.length + 1) cs with
        | some (body, r) => some (.str (String.mk body), r)
        | none => none
      else if c = 'n' then
        match cs with
        | 'u' :: 'l' :: 'l' :: r => some (.null, r)
        | _ => none
      else if c = 't' then
        match cs with
        | 'r' :: 'u' :: 'e' :: r => some (.bool true, r)
        | _ => none
      else if c = 'f' then
        match cs with
        | 'a' :: 'l' :: 's' :: 'e' :: r => some (.bool false, r)
        | _ => none
      else if c = '[' then
        match skipWs cs with
        | [] => none
        | x :: r =>
          if x = ']' then some (.arr [], r)
          else
            match parseItems fuel cs with
            | some (l, r2) => some (.arr l, r2)
            | none => none
      else if c = '\x7b' then
        match skipWs cs with
        | [] => none
        | x :: r =>
          if x = '\x7d' then some (.obj [], r)
          else
            match parseFields fuel cs with
            | some (kv, r2) => some (.obj kv, r2)
            | none => none
      else none

/-- Parse the elements of a non-empty JSON array up to and including the
closing bracket. -/
def parseItems : Nat → List Char → Option (List J × List Char)
  | 0, _ => none
  | fuel + 1, s =>
    match parseVal fuel s with
    | some (j, r) =>
      match skipWs r with
      | [] => none
      | c :: r2 =>
        if c = ',' then
          match parseItems fuel r2 with
          | some (l, r3) => some (j :: l, r3)
          | none => none
        else if c = ']' then some ([j], r2)
        else none
    | none => none

/-- Parse the members of a non-empty JSON object up to and including the
closing brace. -/
def parseFields : Nat → List Char → Option (List (String × J) × List Char)
  | 0, _ => none
  | fuel + 1, s =>
    match skipWs s with
    | [] => none
    | c :: cs =>
      if c = '\x22' then
        match parseStrBody (cs.length + 1) cs with
        | some (key, r) =>
          match skipWs r with
          | [] => none
          | c2 :: r2 =>
            if c2 = ':' then
              match parseVal fuel r2 with
              | some (v, r3) =>
                match skipWs r3 with
                | [] => none
                | c3 :: r4 =>
                  if c3 = ',' then
                    match parseFields fuel r4 with
                    | some (kv, r5) => some ((String.mk key, v) :: kv, r5)
                    | none => none
                  else if c3 = '\x7d' then some ([(String.mk key, v)], r4)
                  else none
              | none => none
            else none
        | none => none
      else none
end

/-- `json.load`: parse a whole document, requiring only whitespace after the
value.  Duplicate object keys keep every pair in order in this model (a
Python dict would keep the last); no file this repository reads or writes
has duplicate keys. -/
def parseJson (s : String) : Option J :=
  match parseVal (s.length + 1) s.toList with
  | some (j, r) => if (skipWs r).isEmpty then some j else none
  | none => none

/-- The filesystem: a map from paths to file contents.  I/O never fails in
this model (`save_json_file`/`save_to_json` catch and log write errors;
that best-effort aspect is outside the claims below). -/
def FS := String → Option String

/-- The cache file paths of src/src/mcp_server.py lines 34-37 (absolute
directories are irrelevant to the claims; the names keep the source's
shape). -/
def MCQS_PATH : String := "outputs/python_mcqs.json"

/-- Lesson plan cache path. -/
def LESSON_PLAN_PATH : String := "outputs/python_lesson_plan.json"

/-- Flashcards cache path. -/
def FLASHCARDS_PATH : String := "outputs/python_flashcards.json"

/-- `load_json_file` from src/src/mcp_server.py lines 39-65: missing file
and JSON decode errors are converted into structured error dictionaries;
the function always returns normally.  (The `details` member carries the
exception text, modelled by a fixed marker.) -/
def load_json_file (fs : FS) (file_path : String) : J :=
  match fs file_path with
  | none =>
    .obj [("error", .str ("File not found: " ++ file_path)),
          ("suggestion", .str "Please run generate_content.py first to create the required files.")]
  | some txt =>
    match parseJson txt with
    | some data => data
    | none =>
      .obj [("error", .str ("Invalid JSON format in " ++ file_path)),
            ("details", .str "JSONDecodeError")]

/-- `save_to_json` from src/src/generate_content.py lines 346-360 (and the
identical `save_json_file` of mcp_server.py): serialize with
`json.dump(data, f, indent=2, ensure_ascii=False)` to the given path,
overwriting any existing file. -/
def save_to_json (data : J) (filename : String) (fs : FS) : FS :=
  fun p => if p = filename then some (dumps data) else fs p

/-- The single built-in default topic. -/
def DEFAULT_TOPIC : String := "Python Programming Basics"

/-- The body of `generate_mcqs_dynamic` (src/src/mcp_server.py lines
234-247) after `load_json_file` returned `existing`: the condition
`if existing_data and "error" not in existing_data` is Python truthiness
followed by short-circuit membership (which raises `TypeError` on truthy
non-container values); on a hit the two metadata fields are patched in
place (item assignment on a non-dict raises `TypeError`), otherwise the
fallback generator runs. -/
def generate_mcqs_dynamic_core (topic : String) (num_questions : Nat) (existing : J) (now : String) :
    Except PyErr J :=
  if topic = DEFAULT_TOPIC then
    if truthy existing then
      match pyContains "error" existing with
      | .error e => .error e
      | .ok true => .ok (generate_fallback_mcqs topic num_questions now)
      | .ok false =>
        match existing with
        | .obj kv =>
          .ok (.obj (setKey (setKey kv "requested_count" (.num num_questions)) "generated_at" (.str now)))
        | _ => .error (.typeError "object does not support item assignment")
    else .ok (generate_fallback_mcqs topic num_questions now)
  else .ok (generate_fallback_mcqs topic num_questions now)

/-- The body of `generate_lesson_plan_dynamic` (src/src/mcp_server.py lines
249-263) after loading, analogous to the MCQ case but patching `duration`,
`grade_level` and `generated_at`. -/
def generate_lesson_plan_dynamic_core (topic duration grade_level : String) (existing : J)
    (now : String) : Except PyErr J :=
  if topic = DEFAULT_TOPIC then
    if truthy existing then
      match pyContains "error" existing with
      | .error e => .error e
      | .ok true => .ok (generate_fallback_lesson_plan topic duration grade_level now)
      | .ok false =>
        match existing with
        | .obj kv =>
          .ok (.obj (setKey (setKey (setKey kv "duration" (.str duration))
                "grade_level" (.str grade_level)) "generated_at" (.str now)))
        | _ => .error (.typeError "object does not support item assignment")
    else .ok (generate_fallback_lesson_plan topic duration grade_level now)
  else .ok (generate_fallback_lesson_plan topic duration grade_level now)

/-- The body of `generate_flashcards_dynamic` (src/src/mcp_server.py lines
265-278) after loading, analogous to the MCQ case. -/
def generate_flashcards_dynamic_core (topic : String) (num_cards : Nat) (existing : J)
    (now : String) : Except PyErr J :=
  if topic = DEFAULT_TOPIC then
    if truthy existing then
      match pyContains "error" existing with
      | .error e => .error e
      | .ok true => .ok (generate_fallback_flashcards topic num_cards now)
      | .ok false =>
        match existing with
        | .obj kv =>
          .ok (.obj (setKey (setKey kv "requested_count" (.num num_cards)) "generated_at" (.str now)))
        | _ => .error (.typeError "object does not support item assignment")
    else .ok (generate_fallback_flashcards topic num_cards now)
  else .ok (generate_fallback_flashcards topic num_cards now)

/-- `generate_mcqs_dynamic` composed with its `load_json_file` call. -/
def generate_mcqs_dynamic (topic : String) (num_questions : Nat) (fs : FS) (now : String) :
    Except PyErr J :=
  generate_mcqs_dynamic_core topic num_questions (load_json_file fs MCQS_PATH) now

/-- `generate_lesson_plan_dynamic` composed with its `load_json_file` call. -/
def generate_lesson_plan_dynamic (topic duration grade_level : String) (fs : FS) (now : String) :
    Except PyErr J :=
  generate_lesson_plan_dynamic_core topic duration grade_level (load_json_file fs LESSON_PLAN_PATH) now

/-- `generate_flashcards_dynamic` composed with its `load_json_file` call. -/
def generate_flashcards_dynamic (topic : String) (num_cards : Nat) (fs : FS) (now : String) :
    Except PyErr J :=
  generate_flashcards_dynamic_core topic num_cards (load_json_file fs FLASHCARDS_PATH) now

/-- The arguments dict of a `call_tool` request, as validated by the input
schemas of src/src/mcp_server.py lines 134-202 (`arguments.get(key, default)`
reads each optional member). -/
structure ToolArgs where
  topic : Option String
  num_questions : Option Nat
  duration : Option String
  grade_level : Option String
  num_cards : Option Nat

/-- `handle_call_tool` from src/src/mcp_server.py lines 205-232: dispatch on
the tool name, defaulting each missing argument, serialize the produced
dict with `json.dumps(data, indent=2)` into a single text content item;
an unknown tool name raises `ValueError`. -/
def handle_call_tool (name : String) (arguments : ToolArgs) (fs : FS) (now : String) :
    Except PyErr (List String) :=
  if name = "generate_mcqs" then
    (generate_mcqs_dynamic (arguments.topic.getD DEFAULT_TOPIC)
      (arguments.num_questions.getD 10) fs now).map (fun data => [dumps data])
  else if name = "generate_lesson_plan" then
    (generate_lesson_plan_dynamic (arguments.topic.getD DEFAULT_TOPIC)
      (arguments.duration.getD "60 minutes") (arguments.grade_level.getD "Beginner")
      fs now).map (fun data => [dumps data])
  else if name = "generate_flashcards" then
    (generate_flashcards_dynamic (arguments.topic.getD DEFAULT_TOPIC)
      (arguments.num_cards.getD 10) fs now).map (fun data => [dumps data])
  else .error (.valueError ("Unknown tool: " ++ name))

/-- `handle_read_resource` from src/src/mcp_server.py lines 108-125: the
three known URIs serve the serialized load of the matching cache file; an
unknown URI raises `ValueError`. -/
def handle_read_resource (uri : String) (fs : FS) : Except PyErr String :=
  if uri = "educhain://mcqs/python" then .ok (dumps (load_json_file fs MCQS_PATH))
  else if uri = "educhain://lesson-plan/python" then .ok (dumps (load_json_file fs LESSON_PLAN_PATH))
  else if uri = "educhain://flashcards/python" then .ok (dumps (load_json_file fs FLASHCARDS_PATH))
  else .error (.valueError ("Unknown resource URI: " ++ uri))

/-- Is the value a JSON object (a Python dict)? -/
def isObjJ : J → Bool
  | .obj _ => true
  | _ => false

/-- All characters of the input before `skipWs` stops are whitespace. -/
def allWs (l : List Char) : Bool := l.all wsChar

/-- The head of the rest, if any, is not a digit. -/
def headNotDigit : List Char → Prop
  | [] => True
  | c :: _ => isDigitChar c = false

mutual

/-- Enough fuel for `parseVal` to parse the printed form of a value. -/
def fuelNeed : J → Nat
  | .null => 1
  | .bool _ => 1
  | .num _ => 1
  | .str _ => 1
  | .arr l => 1 + fuelNeedItems l
  | .obj kv => 1 + fuelNeedFields kv

/-- Enough fuel for `parseItems` on a printed element list. -/
def fuelNeedItems : List J → Nat
  | [] => 1
  | x :: xs => 1 + fuelNeed x + fuelNeedItems xs

/-- Enough fuel for `parseFields` on a printed member list. -/
def fuelNeedFields : List (String × J) → Nat
  | [] => 1
  | p :: ps => 1 + fuelNeed p.2 + fuelNeedFields ps
end

/-- The value round-trip property, for one value. -/
def LvalP (j : J) : Prop :=
  ∀ lvl pre rest fuel, allWs pre = true → numStop rest = true → fuelNeed j ≤ fuel →
    parseVal fuel (pre ++ (printVal lvl j ++ rest)) = some (j, rest)

/-- C1: the claim fails on the code.  At `num_questions = 6` the fallback MCQ
bundle does contain 6 questions, but their ids are `[6, 2, 3, 4, 5, 6]` —
neither contiguous `1..6` nor unique — because Python list replication
(`sample_mcqs * k`) aliases the five sample dicts, so the id-renumbering loop
overwrites the ids written for the first cycle.  This contradicts the code's
own comment "Update IDs to be unique". -/
theorem C1_fallback_mcq_ids_not_unique :
    (questionObjs (generate_fallback_mcqs "Python Programming Basics" 6 "2025-01-01T00:00:00")).length = 6 ∧
    itemIds (questionObjs (generate_fallback_mcqs "Python Programming Basics" 6 "2025-01-01T00:00:00"))
      = [6, 2, 3, 4, 5, 6] ∧
    ¬ (itemIds (questionObjs (generate_fallback_mcqs "Python Programming Basics" 6 "2025-01-01T00:00:00"))).Nodup ∧
    itemIds (questionObjs (generate_fallback_mcqs "Python Programming Basics" 6 "2025-01-01T00:00:00"))
      ≠ [1, 2, 3, 4, 5, 6] :=
  ⟨by decide, by decide, by decide, by decide⟩

/-- C5: the claim fails on the code.  At `num_cards = 4` the fallback
flashcard bundle contains 4 cards whose fronts do cycle through the 3-element
base sample in order, but the ids are `[4, 2, 3, 4]` rather than `1..4`: the
replicated list aliases the three sample dicts, so renumbering position 3
also overwrites the id of position 0.  This contradicts the code's own
comment "Update IDs to be unique". -/
theorem C5_fallback_flashcard_ids_not_unique :
    (flashcardObjs (generate_fallback_flashcards "Python Programming Basics" 4 "2025-01-01T00:00:00")).length = 4 ∧
    itemFronts (flashcardObjs (generate_fallback_flashcards "Python Programming Basics" 4 "2025-01-01T00:00:00"))
      = [jlookup (sample_flashcards.getD 0 []) "front", jlookup (sample_flashcards.getD 1 []) "front",
         jlookup (sample_flashcards.getD 2 []) "front", jlookup (sample_flashcards.getD 0 []) "front"] ∧
    itemIds (flashcardObjs (generate_fallback_flashcards "Python Programming Basics" 4 "2025-01-01T00:00:00"))
      = [4, 2, 3, 4] ∧
    ¬ (itemIds (flashcardObjs (generate_fallback_flashcards "Python Programming Basics" 4 "2025-01-01T00:00:00"))).Nodup ∧
    itemIds (flashcardObjs (generate_fallback_flashcards "Python Programming Basics" 4 "2025-01-01T00:00:00"))
      ≠ [1, 2, 3, 4] :=
  ⟨by decide, rfl, by decide, by decide, by decide⟩

/-- C10: confirmed.  For every topic, duration and grade level the fallback
lesson plan has exactly the two phases "Introduction" and "Main Content" with
the fixed per-phase durations "10 minutes" and "40 minutes", independent of
the requested duration; the duration argument affects only the bundle's
top-level `duration` field (replacing that one field turns the bundle built
with one duration into the bundle built with another). -/
theorem C10_lesson_phases_fixed_durations (topic duration duration' grade_level now : String) :
    phaseInfo (generate_fallback_lesson_plan topic duration grade_level now)
      = [(some (.str "Introduction"), some (.str "10 minutes")),
         (some (.str "Main Content"), some (.str "40 minutes"))] ∧
    bundleField (generate_fallback_lesson_plan topic duration grade_level now) "duration"
      = some (.str duration) ∧
    generate_fallback_lesson_plan topic duration grade_level now
      = J.obj (setKey (objFields (generate_fallback_lesson_plan topic duration' grade_level now))
                "duration" (.str duration)) :=
  ⟨by rfl, by rfl, by rfl⟩

/-- C2: the claim fails on the code.  With an external capability that
raises on the first attempt and would succeed on the second, the pipeline
returns the fallback bundle rather than the retried primary result: the
body's `except Exception` clause catches the error before the tenacity
decorator can observe it, so no retry happens before the fallback
generator is invoked. -/
theorem C2_counterexample_exception_not_retried :
    generate_mcqs_pipeline excThenOk "Python Programming Basics" 2 "2025-01-01T00:00:00"
      = .ok (generate_fallback_mcqs "Python Programming Basics" 2 "2025-01-01T00:00:00") ∧
    resultGeneratedBy
        (generate_mcqs_pipeline excThenOk "Python Programming Basics" 2 "2025-01-01T00:00:00")
      = some (.str "Fallback System") ∧
    resultGeneratedBy
        (generate_mcqs_pipeline excThenOk "Python Programming Basics" 2 "2025-01-01T00:00:00")
      ≠ some (.str "EduChain with Google Gemini") :=
  ⟨by rfl, by rfl, by simp [resultGeneratedBy, generate_mcqs_pipeline, tenacityRetry3, attemptLoop,
      generate_mcqs_body, excThenOk, generate_fallback_mcqs, bundleField, jlookup]⟩

/-- C2 (amended): `generate_mcqs` is wrapped in a tenacity retry decorator
configured for up to 3 attempts with a fixed 2-unit wait, but the function
body catches every exception (including timeout) and returns a bundle
instead of raising, so the decorator never observes a failure and never
retries: the result is always the first attempt's outcome, and any
exception from the external call — exactly like a timeout — falls back
immediately on attempt one. -/
theorem C2_amended_single_attempt_fallback (oracle : Nat → CallOutcome) (topic : String)
    (num : Nat) (now : String) :
    generate_mcqs_pipeline oracle topic num now
      = .ok (generate_mcqs_body (oracle 0) topic num now) ∧
    (∀ msg, oracle 0 = .exc msg →
      generate_mcqs_pipeline oracle topic num now
        = .ok (generate_fallback_mcqs topic num now)) ∧
    (oracle 0 = .timeout →
      generate_mcqs_pipeline oracle topic num now
        = .ok (generate_fallback_mcqs topic num now)) := by
  refine ⟨rfl, ?_, ?_⟩
  · intro msg h
    simp [generate_mcqs_pipeline, tenacityRetry3, attemptLoop, h, generate_mcqs_body]
  · intro h
    simp [generate_mcqs_pipeline, tenacityRetry3, attemptLoop, h, generate_mcqs_body]

/-- Smoke test 1 for the JSON parser and printer. -/
theorem parseJson_smoke1 : parseJson "\x7b\x7d" = some (.obj []) := rfl

/-- Smoke test 2 for the JSON parser and printer. -/
theorem parseJson_smoke2 : parseJson " [1, -2, null] " = some (.arr [.num 1, .num (-2), .null]) := rfl

/-- Smoke test 3 for the JSON parser and printer. -/
theorem parseJson_smoke3 : parseJson "\x7b\"a\": \"b c\", \"d\": [true, \x7b\x7d]\x7d"
  = some (.obj [("a", .str "b c"), ("d", .arr [.bool true, .obj []])]) := rfl

/-- Smoke test 4 for the JSON parser and printer. -/
theorem parseJson_smoke4 : parseJson (dumps (J.obj [("topic", .str "x\ny"), ("n", .num 12), ("l", .arr [.num 1, .str "z"])]))
  = some (J.obj [("topic", .str "x\ny"), ("n", .num 12), ("l", .arr [.num 1, .str "z"])]) := rfl

/-- `setKey` makes the key look up to the new value. -/
theorem jlookup_setKey_self (kv : List (String × J)) (key : String) (v : J) :
    jlookup (setKey kv key v) key = some v := by
  induction kv with
  | nil => simp [setKey, jlookup]
  | cons hd tl ih =>
    rcases hd with ⟨k0, v0⟩
    by_cases hk : k0 = key
    · simp [setKey, hk, jlookup]
    · simp [setKey, hk, jlookup, ih]

/-- `setKey` leaves every other key's lookup unchanged. -/
theorem jlookup_setKey_ne (kv : List (String × J)) (key other : String) (v : J)
    (h : other ≠ key) : jlookup (setKey kv key v) other = jlookup kv other := by
  induction kv with
  | nil => simp [setKey, jlookup, Ne.symm h]
  | cons hd tl ih =>
    rcases hd with ⟨k0, v0⟩
    by_cases hk : k0 = key
    · subst hk
      simp [setKey, jlookup, Ne.symm h]
    · simp [setKey, hk, jlookup, ih]

/-- C8: confirmed.  For every filesystem and path at which no file exists,
`load_json_file` returns the structured "File not found" error dictionary
(and, being a total function, never raises). -/
theorem C8_load_missing_file_error (fs : FS) (file_path : String)
    (h : fs file_path = none) :
    load_json_file fs file_path
      = .obj [("error", .str ("File not found: " ++ file_path)),
              ("suggestion", .str "Please run generate_content.py first to create the required files.")] ∧
    bundleField (load_json_file fs file_path) "error"
      = some (.str ("File not found: " ++ file_path)) := by
  refine ⟨?_, ?_⟩ <;> simp [load_json_file, h, bundleField, jlookup]

/-- Witness for C8 at a concrete empty filesystem and concrete path. -/
theorem C8_witness :
    load_json_file (fun _ => none) "outputs/python_mcqs.json"
      = .obj [("error", .str ("File not found: " ++ "outputs/python_mcqs.json")),
              ("suggestion", .str "Please run generate_content.py first to create the required files.")] ∧
    bundleField (load_json_file (fun _ => none) "outputs/python_mcqs.json") "error"
      = some (.str ("File not found: " ++ "outputs/python_mcqs.json")) :=
  C8_load_missing_file_error (fun _ => none) "outputs/python_mcqs.json" rfl

/-- C9: confirmed.  For the default topic, whenever the loaded cache value
is a dict containing an "error" key — regardless of its other contents — or
any falsy value, all three server operations return the fallback bundle. -/
theorem C9_error_key_or_falsy_fallback (existing : J) (num_questions num_cards : Nat)
    (duration grade_level now : String)
    (h : (∃ kv, existing = .obj kv ∧ kv.any (fun p => p.1 = "error") = true) ∨
         truthy existing = false) :
    generate_mcqs_dynamic_core DEFAULT_TOPIC num_questions existing now
      = .ok (generate_fallback_mcqs DEFAULT_TOPIC num_questions now) ∧
    generate_lesson_plan_dynamic_core DEFAULT_TOPIC duration grade_level existing now
      = .ok (generate_fallback_lesson_plan DEFAULT_TOPIC duration grade_level now) ∧
    generate_flashcards_dynamic_core DEFAULT_TOPIC num_cards existing now
      = .ok (generate_fallback_flashcards DEFAULT_TOPIC num_cards now) := by
  refine ⟨?_, ?_, ?_⟩ <;>
  · rcases h with ⟨kv, rfl, hkv⟩ | hf
    · by_cases ht : truthy (J.obj kv) = true
      · simp [generate_mcqs_dynamic_core, generate_lesson_plan_dynamic_core,
          generate_flashcards_dynamic_core, ht, pyContains, hkv]
      · simp [generate_mcqs_dynamic_core, generate_lesson_plan_dynamic_core,
          generate_flashcards_dynamic_core, ht]
    · simp [generate_mcqs_dynamic_core, generate_lesson_plan_dynamic_core,
        generate_flashcards_dynamic_core, hf]

/-- Witness for C9 at a concrete dict that carries both a legitimate-looking
payload and an "error" member. -/
theorem C9_witness :
    generate_mcqs_dynamic_core DEFAULT_TOPIC 3
        (.obj [("error", .str "x"), ("topic", .str "cached")]) "T"
      = .ok (generate_fallback_mcqs DEFAULT_TOPIC 3 "T") ∧
    generate_lesson_plan_dynamic_core DEFAULT_TOPIC "60 minutes" "Beginner"
        (.obj [("error", .str "x"), ("topic", .str "cached")]) "T"
      = .ok (generate_fallback_lesson_plan DEFAULT_TOPIC "60 minutes" "Beginner" "T") ∧
    generate_flashcards_dynamic_core DEFAULT_TOPIC 5
        (.obj [("error", .str "x"), ("topic", .str "cached")]) "T"
      = .ok (generate_fallback_flashcards DEFAULT_TOPIC 5 "T") :=
  C9_error_key_or_falsy_fallback (.obj [("error", .str "x"), ("topic", .str "cached")])
    3 5 "60 minutes" "Beginner" "T" (Or.inl ⟨_, rfl, by decide⟩)

/-- C6: confirmed.  For every topic other than the built-in default, each of
the three operations returns exactly the fallback generator's output and is
independent of the cache contents (the filesystem argument is never
consulted; the server never invokes the live pipeline, which it does not
even import). -/
theorem C6_non_default_topic_uses_fallback (topic : String) (h : topic ≠ DEFAULT_TOPIC)
    (num_questions num_cards : Nat) (duration grade_level now : String) (fs fs' : FS) :
    generate_mcqs_dynamic topic num_questions fs now
      = .ok (generate_fallback_mcqs topic num_questions now) ∧
    generate_lesson_plan_dynamic topic duration grade_level fs now
      = .ok (generate_fallback_lesson_plan topic duration grade_level now) ∧
    generate_flashcards_dynamic topic num_cards fs now
      = .ok (generate_fallback_flashcards topic num_cards now) ∧
    generate_mcqs_dynamic topic num_questions fs now
      = generate_mcqs_dynamic topic num_questions fs' now ∧
    generate_lesson_plan_dynamic topic duration grade_level fs now
      = generate_lesson_plan_dynamic topic duration grade_level fs' now ∧
    generate_flashcards_dynamic topic num_cards fs now
      = generate_flashcards_dynamic topic num_cards fs' now := by
  refine ⟨?_, ?_, ?_, ?_, ?_, ?_⟩ <;>
    simp [generate_mcqs_dynamic, generate_lesson_plan_dynamic, generate_flashcards_dynamic,
      generate_mcqs_dynamic_core, generate_lesson_plan_dynamic_core,
      generate_flashcards_dynamic_core, h]

/-- Witness for C6 at the concrete non-default topic "Algebra". -/
theorem C6_witness :
    generate_mcqs_dynamic "Algebra" 4 (fun _ => none) "T"
      = .ok (generate_fallback_mcqs "Algebra" 4 "T") ∧
    generate_lesson_plan_dynamic "Algebra" "45 minutes" "Expert" (fun _ => none) "T"
      = .ok (generate_fallback_lesson_plan "Algebra" "45 minutes" "Expert" "T") ∧
    generate_flashcards_dynamic "Algebra" 2 (fun _ => none) "T"
      = .ok (generate_fallback_flashcards "Algebra" 2 "T") := by
  have h := C6_non_default_topic_uses_fallback "Algebra" (by decide) 4 2
    "45 minutes" "Expert" "T" (fun _ => none) (fun _ => some "\x7b\x7d")
  exact ⟨h.1, h.2.1, h.2.2.1⟩

/-- C4 (amended): if the MCQ cache file exists and parses to a *non-empty*
dict without an "error" key, the default-topic MCQ operation with
`num_questions = 3` returns the cached dict with `requested_count` set to 3,
`generated_at` set to the fresh timestamp, and every other field — including
the `questions` list, which is not truncated or expanded — exactly as
loaded.  (The claim as stated also covers the empty dict, where the code
falls back instead: see the counterexample.) -/
theorem C4_nonempty_cache_patched (fs : FS) (now txt : String) (kv : List (String × J))
    (hfile : fs MCQS_PATH = some txt)
    (hparse : parseJson txt = some (.obj kv))
    (hne : kv ≠ [])
    (hnoerr : kv.any (fun p => p.1 = "error") = false) :
    generate_mcqs_dynamic DEFAULT_TOPIC 3 fs now
      = .ok (.obj (setKey (setKey kv "requested_count" (.num 3)) "generated_at" (.str now))) ∧
    jlookup (setKey (setKey kv "requested_count" (.num 3)) "generated_at" (.str now))
      "requested_count" = some (.num 3) ∧
    jlookup (setKey (setKey kv "requested_count" (.num 3)) "generated_at" (.str now))
      "generated_at" = some (.str now) ∧
    (∀ k, k ≠ "requested_count" → k ≠ "generated_at" →
      jlookup (setKey (setKey kv "requested_count" (.num 3)) "generated_at" (.str now)) k
        = jlookup kv k) ∧
    jlookup (setKey (setKey kv "requested_count" (.num 3)) "generated_at" (.str now))
      "questions" = jlookup kv "questions" := by
  have hload : load_json_file fs MCQS_PATH = .obj kv := by
    simp [load_json_file, hfile, hparse]
  have htr : truthy (J.obj kv) = true := by
    cases kv with
    | nil => exact absurd rfl hne
    | cons hd tl => simp [truthy]
  refine ⟨?_, ?_, ?_, ?_, ?_⟩
  · simp [generate_mcqs_dynamic, hload, generate_mcqs_dynamic_core, htr, pyContains, hnoerr]
  · rw [jlookup_setKey_ne _ _ _ _ (by decide), jlookup_setKey_self]
  · rw [jlookup_setKey_self]
  · intro k hk1 hk2
    rw [jlookup_setKey_ne _ _ _ _ hk2, jlookup_setKey_ne _ _ _ _ hk1]
  · rw [jlookup_setKey_ne _ _ _ _ (by decide), jlookup_setKey_ne _ _ _ _ (by decide)]

/-- Witness for C4 at a concrete one-field cache file. -/
theorem C4_witness :
    generate_mcqs_dynamic DEFAULT_TOPIC 3
        (fun p => if p = MCQS_PATH
          then some "\x7b\"topic\": \"Python Programming Basics\"\x7d" else none) "T"
      = .ok (.obj (setKey (setKey [("topic", .str "Python Programming Basics")]
          "requested_count" (.num 3)) "generated_at" (.str "T"))) :=
  (C4_nonempty_cache_patched
    (fun p => if p = MCQS_PATH
      then some "\x7b\"topic\": \"Python Programming Basics\"\x7d" else none)
    "T" "\x7b\"topic\": \"Python Programming Basics\"\x7d"
    [("topic", .str "Python Programming Basics")]
    rfl rfl (List.cons_ne_nil _ _) (by decide)).1

/-- C4 counterexample: a cache file containing the empty dict — which does
exist and does parse to a dict without an "error" key — is *not* returned
patched: Python truthiness of the empty dict is false, so the operation
falls back instead.  The result carries the fallback provenance tag and is
not the patched cache dict the claim demands. -/
theorem C4_counterexample_empty_dict :
    generate_mcqs_dynamic DEFAULT_TOPIC 3
        (fun p => if p = MCQS_PATH then some "\x7b\x7d" else none) "T"
      = .ok (generate_fallback_mcqs DEFAULT_TOPIC 3 "T") ∧
    resultGeneratedBy (generate_mcqs_dynamic DEFAULT_TOPIC 3
        (fun p => if p = MCQS_PATH then some "\x7b\x7d" else none) "T")
      = some (.str "Fallback System") ∧
    ¬ (generate_mcqs_dynamic DEFAULT_TOPIC 3
        (fun p => if p = MCQS_PATH then some "\x7b\x7d" else none) "T"
      = .ok (.obj (setKey (setKey [] "requested_count" (.num 3)) "generated_at" (.str "T")))) := by
  refine ⟨rfl, rfl, ?_⟩
  intro hcontra
  have h1 : (Except.ok (generate_fallback_mcqs DEFAULT_TOPIC 3 "T") : Except PyErr J)
      = .ok (.obj (setKey (setKey [] "requested_count" (.num 3)) "generated_at" (.str "T"))) :=
    (rfl : generate_mcqs_dynamic DEFAULT_TOPIC 3
        (fun p => if p = MCQS_PATH then some "\x7b\x7d" else none) "T"
      = .ok (generate_fallback_mcqs DEFAULT_TOPIC 3 "T")).symm.trans hcontra
  have h2 : generate_fallback_mcqs DEFAULT_TOPIC 3 "T"
      = .obj (setKey (setKey [] "requested_count" (.num 3)) "generated_at" (.str "T")) := by
    injection h1
  have h4 : (some (J.str "Fallback System") : Option J) = none :=
    congrArg (fun b => bundleField b "generated_by") h2
  exact Option.noConfusion h4

/-- A value satisfying `isObjJ` is an object. -/
theorem exists_obj_of_isObjJ {j : J} (h : isObjJ j = true) : ∃ kv, j = .obj kv := by
  cases j <;> first
    | exact ⟨_, rfl⟩
    | simp [isObjJ] at h

/-- `Except.map` preserves success. -/
theorem isOk_map {ε α β : Type} (f : α → β) (e : Except ε α) : (e.map f).isOk = e.isOk := by
  cases e <;> rfl

/-- On a dict-shaped cache value the MCQ operation never raises. -/
theorem mcqs_core_isOk (topic : String) (num : Nat) (kv : List (String × J)) (now : String) :
    (generate_mcqs_dynamic_core topic num (J.obj kv) now).isOk = true := by
  unfold generate_mcqs_dynamic_core
  by_cases ht : topic = DEFAULT_TOPIC
  · by_cases htr : truthy (J.obj kv) = true
    · by_cases herr : kv.any (fun p => p.1 = "error") = true
      · simp [ht, htr, pyContains, herr, Except.isOk, Except.toBool]
      · simp [ht, htr, pyContains, herr, Except.isOk, Except.toBool]
    · simp [ht, htr, Except.isOk, Except.toBool]
  · simp [ht, Except.isOk, Except.toBool]

/-- On a dict-shaped cache value the lesson plan operation never raises. -/
theorem lesson_core_isOk (topic duration grade_level : String) (kv : List (String × J))
    (now : String) :
    (generate_lesson_plan_dynamic_core topic duration grade_level (J.obj kv) now).isOk = true := by
  unfold generate_lesson_plan_dynamic_core
  by_cases ht : topic = DEFAULT_TOPIC
  · by_cases htr : truthy (J.obj kv) = true
    · by_cases herr : kv.any (fun p => p.1 = "error") = true
      · simp [ht, htr, pyContains, herr, Except.isOk, Except.toBool]
      · simp [ht, htr, pyContains, herr, Except.isOk, Except.toBool]
    · simp [ht, htr, Except.isOk, Except.toBool]
  · simp [ht, Except.isOk, Except.toBool]

/-- On a dict-shaped cache value the flashcard operation never raises. -/
theorem flashcards_core_isOk (topic : String) (num : Nat) (kv : List (String × J))
    (now : String) :
    (generate_flashcards_dynamic_core topic num (J.obj kv) now).isOk = true := by
  unfold generate_flashcards_dynamic_core
  by_cases ht : topic = DEFAULT_TOPIC
  · by_cases htr : truthy (J.obj kv) = true
    · by_cases herr : kv.any (fun p => p.1 = "error") = true
      · simp [ht, htr, pyContains, herr, Except.isOk, Except.toBool]
      · simp [ht, htr, pyContains, herr, Except.isOk, Except.toBool]
    · simp [ht, htr, Except.isOk, Except.toBool]
  · simp [ht, Except.isOk, Except.toBool]

/-- C3 (amended): for the three known tool names (with any schema-shaped
arguments) and the three known resource URIs, the handlers always return a
well-formed success and never raise, provided every cache load yields a
dict — which is what `load_json_file` produces on missing or malformed
files and what `generate_content.py` writes.  The claim as stated fails for
unknown names: see the counterexample, where both handlers raise
`ValueError`. -/
theorem C3_known_requests_never_raise (name uri : String) (arguments : ToolArgs)
    (fs : FS) (now : String)
    (hfs : ∀ p, isObjJ (load_json_file fs p) = true)
    (hname : name = "generate_mcqs" ∨ name = "generate_lesson_plan" ∨
             name = "generate_flashcards")
    (huri : uri = "educhain://mcqs/python" ∨ uri = "educhain://lesson-plan/python" ∨
            uri = "educhain://flashcards/python") :
    (handle_call_tool name arguments fs now).isOk = true ∧
    (handle_read_resource uri fs).isOk = true := by
  constructor
  · obtain ⟨kv1, h1⟩ := exists_obj_of_isObjJ (hfs MCQS_PATH)
    obtain ⟨kv2, h2⟩ := exists_obj_of_isObjJ (hfs LESSON_PLAN_PATH)
    obtain ⟨kv3, h3⟩ := exists_obj_of_isObjJ (hfs FLASHCARDS_PATH)
    rcases hname with rfl | rfl | rfl
    · rw [handle_call_tool, if_pos rfl, isOk_map, generate_mcqs_dynamic, h1]
      exact mcqs_core_isOk _ _ _ _
    · rw [handle_call_tool, if_neg (by decide), if_pos rfl, isOk_map,
        generate_lesson_plan_dynamic, h2]
      exact lesson_core_isOk _ _ _ _ _
    · rw [handle_call_tool, if_neg (by decide), if_neg (by decide), if_pos rfl, isOk_map,
        generate_flashcards_dynamic, h3]
      exact flashcards_core_isOk _ _ _ _
  · rcases huri with rfl | rfl | rfl
    · rw [handle_read_resource, if_pos rfl]; rfl
    · rw [handle_read_resource, if_neg (by decide), if_pos rfl]; rfl
    · rw [handle_read_resource, if_neg (by decide), if_neg (by decide), if_pos rfl]; rfl

/-- Witness for C3 at a concrete request against an empty filesystem. -/
theorem C3_witness :
    (handle_call_tool "generate_mcqs" ⟨none, none, none, none, none⟩
      (fun _ => none) "T").isOk = true ∧
    (handle_read_resource "educhain://mcqs/python" (fun _ => none)).isOk = true :=
  C3_known_requests_never_raise "generate_mcqs" "educhain://mcqs/python"
    ⟨none, none, none, none, none⟩ (fun _ => none) "T"
    (fun _ => rfl) (Or.inl rfl) (Or.inl rfl)

/-- C3 counterexample: an unknown tool name or resource URI makes the
handler raise `ValueError` — so it is not the case that no handler raises
for any input name. -/
theorem C3_counterexample_unknown_name_raises :
    handle_call_tool "summarize" ⟨none, none, none, none, none⟩ (fun _ => none) "T"
      = .error (.valueError ("Unknown tool: " ++ "summarize")) ∧
    handle_read_resource "educhain://notes/python" (fun _ => none)
      = .error (.valueError ("Unknown resource URI: " ++ "educhain://notes/python")) :=
  ⟨rfl, rfl⟩

/-- `Char.ofNat` below the surrogate range round-trips its code. -/
theorem toNat_ofNat_valid {n : Nat} (h : n < 55296) : (Char.ofNat n).toNat = n := by
  rw [Char.ofNat, dif_pos (Or.inl h)]
  simp [Char.ofNatAux, Char.toNat, UInt32.toNat, BitVec.toNat_ofNatLt]

/-- `skipWs` drops an all-whitespace prefix. -/
theorem skipWs_append (l r : List Char) (h : allWs l = true) : skipWs (l ++ r) = skipWs r := by
  induction l with
  | nil => rfl
  | cons c cs ih =>
    simp only [allWs, List.all_cons, Bool.and_eq_true] at h
    simpa [skipWs, h.1] using ih (by simp [allWs, h.2])

/-- `skipWs` stops at a non-whitespace character. -/
theorem skipWs_not_ws (c : Char) (r : List Char) (h : wsChar c = false) :
    skipWs (c :: r) = c :: r := by
  simp [skipWs, h]

/-- Indentation is whitespace. -/
theorem allWs_indent (lvl : Nat) : allWs (indentChars lvl) = true := by
  simp only [allWs, indentChars, List.all_eq_true]
  intro c hc
  rw [List.eq_of_mem_replicate hc]
  decide

/-- Digits of `natDigitsAux` do not depend on the fuel once it exceeds `n`. -/
theorem natDigitsAux_fuel (n : Nat) : ∀ fuel fuel', n < fuel → n < fuel' →
    natDigitsAux fuel n = natDigitsAux fuel' n := by
  induction n using Nat.strong_induction_on with
  | _ n ih =>
    intro fuel fuel' h h'
    match fuel, h with
    | f + 1, _ =>
      match fuel', h' with
      | f' + 1, _ =>
        by_cases h10 : n < 10
        · simp [natDigitsAux, h10]
        · have hd : n / 10 < n := Nat.div_lt_self (by omega) (by omega)
          simp only [natDigitsAux, h10, if_false]
          rw [ih (n / 10) hd f f' (by omega) (by omega)]

/-- All characters of `natDigitsAux` are decimal digits. -/
theorem natDigitsAux_digits (n : Nat) : ∀ fuel, n < fuel →
    ∀ c ∈ natDigitsAux fuel n, isDigitChar c = true := by
  induction n using Nat.strong_induction_on with
  | _ n ih =>
    intro fuel h c hc
    match fuel, h with
    | f + 1, _ =>
      by_cases h10 : n < 10
      · simp only [natDigitsAux, h10, if_true, List.mem_singleton] at hc
        subst hc
        simp [isDigitChar, toNat_ofNat_valid (by omega : 48 + n < 55296)]
        omega
      · have hd : n / 10 < n := Nat.div_lt_self (by omega) (by omega)
        simp only [natDigitsAux, h10, if_false, List.mem_append, List.mem_singleton] at hc
        rcases hc with hc | hc
        · exact ih (n / 10) hd f (by omega) c hc
        · subst hc
          have hm : n % 10 < 10 := Nat.mod_lt _ (by omega)
          simp [isDigitChar, toNat_ofNat_valid (by omega : 48 + n % 10 < 55296)]
          omega

/-- `natDigitsAux` is never empty when the fuel suffices. -/
theorem natDigitsAux_ne_nil (n fuel : Nat) (h : n < fuel) : natDigitsAux fuel n ≠ [] := by
  match fuel, h with
  | f + 1, _ =>
    by_cases h10 : n < 10
    · simp [natDigitsAux, h10]
    · simp [natDigitsAux, h10]

/-- Appending one digit multiplies the accumulated value by ten. -/
theorem digitsToNat_append (l : List Char) (c : Char) :
    digitsToNat (l ++ [c]) = 10 * digitsToNat l + (c.toNat - 48) := by
  simp [digitsToNat, List.foldl_append]

/-- `digitsToNat` inverts `natDigitsAux`. -/
theorem digitsToNat_natDigitsAux (n : Nat) : ∀ fuel, n < fuel →
    digitsToNat (natDigitsAux fuel n) = n := by
  induction n using Nat.strong_induction_on with
  | _ n ih =>
    intro fuel h
    match fuel, h with
    | f + 1, _ =>
      by_cases h10 : n < 10
      · simp only [natDigitsAux, h10, if_true]
        simp [digitsToNat, toNat_ofNat_valid (by omega : 48 + n < 55296)]
      · have hd : n / 10 < n := Nat.div_lt_self (by omega) (by omega)
        simp only [natDigitsAux, h10, if_false]
        rw [digitsToNat_append, ih (n / 10) hd f (by omega),
          toNat_ofNat_valid (by omega : 48 + n % 10 < 55296)]
        omega

/-- `takeDigits` splits an all-digit prefix from a non-digit-headed rest. -/
theorem takeDigits_append (d r : List Char) (hd : ∀ c ∈ d, isDigitChar c = true)
    (hr : headNotDigit r) :
    takeDigits (d ++ r) = (d, r) := by
  induction d with
  | nil =>
    match r with
    | [] => rfl
    | c :: cs =>
      have hr' : isDigitChar c = false := hr
      simp [takeDigits, hr']
  | cons c cs ih =>
    have hc := hd c (List.mem_cons_self _ _)
    simp only [List.cons_append, takeDigits, hc, if_true, List.append_eq]
    rw [ih (fun x hx => hd x (List.mem_cons_of_mem _ hx))]

/-- A `numStop` head is not a digit. -/
theorem numStop_head (r : List Char) (h : numStop r = true) : headNotDigit r := by
  match r with
  | [] => trivial
  | c :: cs =>
    simp only [numStop, Bool.not_eq_true', Bool.or_eq_false_iff] at h
    exact h.1.1.1

/-- Character list of a nonneg decimal is headed by a digit. -/
theorem natDigits_cons (n : Nat) : ∃ d ds, natDigits n = d :: ds ∧ isDigitChar d = true := by
  match hnd : natDigits n with
  | [] => exact absurd hnd (natDigitsAux_ne_nil n (n + 1) (Nat.lt_succ_self n))
  | d :: ds =>
    refine ⟨d, ds, rfl, ?_⟩
    have hnd' : natDigitsAux (n + 1) n = d :: ds := hnd
    exact natDigitsAux_digits n (n + 1) (Nat.lt_succ_self n) d
      (by rw [hnd']; exact List.mem_cons_self _ _)

/-- A digit is not the minus sign. -/
theorem isDigitChar_ne_minus {c : Char} (h : isDigitChar c = true) : ¬ c = '-' := by
  intro heq
  subst heq
  simp [isDigitChar] at h

/-- `parseNum` inverts `natDigits`. -/
theorem parseNum_natDigits (n : Nat) (r : List Char) (h : numStop r = true) :
    parseNum (natDigits n ++ r) = some (.num (n : Int), r) := by
  obtain ⟨d, ds, hds, hdig⟩ := natDigits_cons n
  have hall : ∀ c ∈ natDigits n, isDigitChar c = true :=
    natDigitsAux_digits n (n + 1) (Nat.lt_succ_self n)
  have htake : takeDigits (natDigits n ++ r) = (natDigits n, r) :=
    takeDigits_append _ _ hall (numStop_head r h)
  rw [hds] at htake
  rw [hds, List.cons_append, parseNum, if_neg (isDigitChar_ne_minus hdig)]
  rw [show d :: (ds ++ r) = (d :: ds) ++ r from rfl, htake]
  simp only [h, if_true]
  have : digitsToNat (d :: ds) = n := by
    rw [← hds]
    exact digitsToNat_natDigitsAux n (n + 1) (Nat.lt_succ_self n)
  rw [this]

/-- `parseNum` inverts negative decimals. -/
theorem parseNum_negDigits (m : Nat) (r : List Char) (h : numStop r = true) :
    parseNum (('-' :: natDigits (m + 1)) ++ r) = some (.num (Int.negSucc m), r) := by
  have hall : ∀ c ∈ natDigits (m + 1), isDigitChar c = true :=
    natDigitsAux_digits (m + 1) (m + 2) (Nat.lt_succ_self _)
  have htake : takeDigits (natDigits (m + 1) ++ r) = (natDigits (m + 1), r) :=
    takeDigits_append _ _ hall (numStop_head r h)
  obtain ⟨d, ds, hds, _⟩ := natDigits_cons (m + 1)
  rw [hds] at htake
  rw [List.cons_append, parseNum, if_pos rfl, hds, htake]
  simp only [h, if_true]
  have hv : digitsToNat (d :: ds) = m + 1 := by
    rw [← hds]
    exact digitsToNat_natDigitsAux (m + 1) (m + 2) (Nat.lt_succ_self _)
  rw [hv]
  have hneg : (-(((m + 1) : Nat) : Int)) = Int.negSucc m := by
    rw [Int.negSucc_eq]
    push_cast
    ring
  rw [hneg]

/-- `parseNum` inverts the integer printer. -/
theorem parseNum_intDigits (i : Int) (r : List Char) (h : numStop r = true) :
    parseNum (intDigits i ++ r) = some (.num i, r) := by
  match i with
  | .ofNat n => exact parseNum_natDigits n r h
  | .negSucc m => exact parseNum_negDigits m r h

/-- `hexVal` inverts `hexDigitChar` below 16. -/
theorem hexVal_hexDigitChar (n : Nat) (h : n < 16) : hexVal (hexDigitChar n) = some n := by
  by_cases h10 : n < 10
  · have ht : (hexDigitChar n).toNat = 48 + n := by
      simp [hexDigitChar, h10, toNat_ofNat_valid (show 48 + n < 55296 by omega)]
    rw [hexVal, ht, if_pos (by omega)]
    congr 1
    omega
  · have ht : (hexDigitChar n).toNat = 87 + n := by
      simp [hexDigitChar, h10, toNat_ofNat_valid (show 87 + n < 55296 by omega)]
    rw [hexVal, ht, if_neg (by omega), if_pos (by omega)]
    congr 1
    omega

/-- Every character escapes to at least one character. -/
theorem escapeChar_length_pos (c : Char) : 1 ≤ (escapeChar c).length := by
  unfold escapeChar
  split_ifs <;> simp [lowHexDigits]

/-- Escaping never shortens a string. -/
theorem escapeList_length_ge (l : List Char) : l.length ≤ (escapeList l).length := by
  induction l with
  | nil => simp [escapeList]
  | cons c cs ih =>
    have h1 := escapeChar_length_pos c
    simp only [escapeList, List.map_cons, List.flatten_cons, List.length_append,
      List.length_cons]
    simp only [escapeList] at ih
    omega

/-- One decoding step of `parseStrBody` inverts one `escapeChar`. -/
theorem parseStrBody_step (c : Char) (t : List Char) (f : Nat) (cs0 r0 : List Char)
    (ht : parseStrBody f t = some (cs0, r0)) :
    parseStrBody (f + 1) (escapeChar c ++ t) = some (c :: cs0, r0) := by
  unfold escapeChar
  by_cases h1 : c = '\x22'
  · subst h1
    simp [parseStrBody, unescape, ht]
  rw [if_neg h1]
  by_cases h2 : c = '\\'
  · subst h2
    simp [parseStrBody, unescape, ht]
  rw [if_neg h2]
  by_cases h3 : c = '\n'
  · subst h3
    simp [parseStrBody, unescape, ht]
  rw [if_neg h3]
  by_cases h4 : c = '\r'
  · subst h4
    simp [parseStrBody, unescape, ht]
  rw [if_neg h4]
  by_cases h5 : c = '\t'
  · subst h5
    simp [parseStrBody, unescape, ht]
  rw [if_neg h5]
  by_cases h6 : c = '\x08'
  · subst h6
    simp [parseStrBody, unescape, ht]
  rw [if_neg h6]
  by_cases h7 : c = '\x0c'
  · subst h7
    simp [parseStrBody, unescape, ht]
  rw [if_neg h7]
  by_cases h8 : c.toNat < 32
  · rw [if_pos h8]
    have hn : ((0 * 16 + 0) * 16 + c.toNat / 16) * 16 + c.toNat % 16 = c.toNat := by omega
    simp only [lowHexDigits, List.cons_append, List.nil_append, parseStrBody]
    simp only [show (('\\' : Char) = '\x22') = False by simp,
      show (('\\' : Char) = '\\') = True by simp,
      show (('u' : Char) = 'u') = True by simp, if_true, if_false, ite_true, ite_false]
    rw [show hexVal '0' = some 0 from rfl,
      hexVal_hexDigitChar (c.toNat / 16) (by omega),
      hexVal_hexDigitChar (c.toNat % 16) (by omega)]
    simp only [hn, ht]
    rw [if_pos (by omega : c.toNat < 55296)]
    simp [Char.ofNat_toNat]
  · rw [if_neg h8]
    simp [parseStrBody, h1, h2, ht]

/-- `parseStrBody` inverts `escapeList` up to the closing quote, spending one
fuel unit per decoded character. -/
theorem parseStrBody_escape (l : List Char) : ∀ fuel r, l.length < fuel →
    parseStrBody fuel (escapeList l ++ '\x22' :: r) = some (l, r) := by
  induction l with
  | nil =>
    intro fuel r h
    rcases Nat.exists_eq_succ_of_ne_zero (show fuel ≠ 0 by omega) with ⟨f, rfl⟩
    simp [escapeList, parseStrBody]
  | cons c cs ih =>
    intro fuel r h
    rcases Nat.exists_eq_succ_of_ne_zero (show fuel ≠ 0 by omega) with ⟨f, rfl⟩
    have hf : cs.length < f := by
      simp only [List.length_cons] at h
      omega
    rw [show escapeList (c :: cs) = escapeChar c ++ escapeList cs by simp [escapeList],
      List.append_assoc]
    exact parseStrBody_step c _ f cs r (ih f r hf)

/-- Structural induction over `J` with list-membership hypotheses for the
nested containers. -/
theorem J.indNested (motive : J → Prop)
    (hnull : motive .null) (hbool : ∀ b, motive (.bool b)) (hnum : ∀ n, motive (.num n))
    (hstr : ∀ s, motive (.str s))
    (harr : ∀ l, (∀ j ∈ l, motive j) → motive (.arr l))
    (hobj : ∀ kv, (∀ p ∈ kv, motive p.2) → motive (.obj kv)) : ∀ j, motive j := by
  have key : ∀ n, ∀ j : J, sizeOf j ≤ n → motive j := by
    intro n
    induction n with
    | zero =>
      intro j h
      exfalso
      cases j <;> simp_arith at h
    | succ n ih =>
      intro j h
      cases j with
      | null => exact hnull
      | bool b => exact hbool b
      | num k => exact hnum k
      | str s => exact hstr s
      | arr l =>
        refine harr l (fun x hx => ih x ?_)
        have h1 : sizeOf x < sizeOf l := List.sizeOf_lt_of_mem hx
        have h2 : sizeOf (J.arr l) = 1 + sizeOf l := by simp
        omega
      | obj kv =>
        refine hobj kv (fun p hp => ih p.2 ?_)
        have h1 : sizeOf p < sizeOf kv := List.sizeOf_lt_of_mem hp
        have h2 : sizeOf (J.obj kv) = 1 + sizeOf kv := by simp
        have h3 : sizeOf p.2 < sizeOf p := by
          rcases p with ⟨a, b⟩
          simp_arith
        omega
  exact fun j => key (sizeOf j) j le_rfl

/-- Dropping whitespace then stopping at a non-whitespace head. -/
theorem skipWs_pre (pre : List Char) (c0 : Char) (t : List Char) (hpre : allWs pre = true)
    (hc : wsChar c0 = false) : skipWs (pre ++ c0 :: t) = c0 :: t := by
  rw [skipWs_append _ _ hpre, skipWs_not_ws _ _ hc]

/-- `allWs` over a cons. -/
theorem allWs_cons (c : Char) (l : List Char) : allWs (c :: l) = (wsChar c && allWs l) := by
  simp [allWs]

/-- A digit is not whitespace. -/
theorem isDigitChar_not_ws {c : Char} (h : isDigitChar c = true) : wsChar c = false := by
  simp only [isDigitChar, Bool.and_eq_true, decide_eq_true_eq] at h
  simp only [wsChar, Bool.or_eq_false_iff, decide_eq_false_iff_not]
  omega

/-- A character that can open a printed JSON value: not whitespace and not a
closing delimiter. -/
def headChar (c : Char) : Bool := !(wsChar c || c = ']' || c = '\x7d')

/-- An opening character is not whitespace. -/
theorem headChar_not_ws {c : Char} (h : headChar c = true) : wsChar c = false := by
  simp only [headChar, Bool.not_eq_true', Bool.or_eq_false_iff] at h
  exact h.1.1

/-- An opening character is not a closing bracket. -/
theorem headChar_ne_rbracket {c : Char} (h : headChar c = true) : ¬ c = ']' := by
  simp only [headChar, Bool.not_eq_true', Bool.or_eq_false_iff,
    decide_eq_false_iff_not] at h
  exact h.1.2

/-- An opening character is not a closing brace. -/
theorem headChar_ne_rbrace {c : Char} (h : headChar c = true) : ¬ c = '\x7d' := by
  simp only [headChar, Bool.not_eq_true', Bool.or_eq_false_iff,
    decide_eq_false_iff_not] at h
  exact h.2

/-- Digits open a value. -/
theorem headChar_of_digit {c : Char} (h : isDigitChar c = true) : headChar c = true := by
  have h1 : ¬ c = ']' := by
    intro he
    rw [he] at h
    exact absurd h (by decide)
  have h2 : ¬ c = '\x7d' := by
    intro he
    rw [he] at h
    exact absurd h (by decide)
  simp [headChar, isDigitChar_not_ws h, h1, h2]

/-- The printed form of a value begins with an opening character. -/
theorem printVal_head (lvl : Nat) (j : J) :
    ∃ c t, printVal lvl j = c :: t ∧ headChar c = true := by
  cases j with
  | num i =>
    cases i with
    | ofNat n =>
      obtain ⟨d, ds, hds, hdig⟩ := natDigits_cons n
      exact ⟨d, ds, hds, headChar_of_digit hdig⟩
    | negSucc m => exact ⟨'-', natDigits (m + 1), rfl, rfl⟩
  | str s => exact ⟨'\x22', escapeList s.toList ++ ['\x22'], rfl, rfl⟩
  | null => exact ⟨'n', ['u', 'l', 'l'], rfl, rfl⟩
  | bool b =>
    cases b with
    | false => exact ⟨'f', ['a', 'l', 's', 'e'], rfl, rfl⟩
    | true => exact ⟨'t', ['r', 'u', 'e'], rfl, rfl⟩
  | arr l =>
    cases l with
    | nil => exact ⟨'[', [']'], rfl, rfl⟩
    | cons x xs => exact ⟨'[', _, rfl, rfl⟩
  | obj kv =>
    cases kv with
    | nil => exact ⟨'\x7b', ['\x7d'], rfl, rfl⟩
    | cons p ps => exact ⟨'\x7b', _, rfl, rfl⟩

/-- Rebuilding a string from its character list is the identity. -/
theorem string_mk_toList (s : String) : String.mk s.toList = s := rfl

/-- Null round-trips. -/
theorem LvalP_null : LvalP .null := by
  intro lvl pre rest fuel hpre hrest hfuel
  rcases Nat.exists_eq_succ_of_ne_zero (show fuel ≠ 0 by simp [fuelNeed] at hfuel; omega) with ⟨f, rfl⟩
  have hskip : skipWs (pre ++ (printVal lvl .null ++ rest)) = 'n' :: ('u' :: 'l' :: 'l' :: rest) := by
    rw [show printVal lvl .null ++ rest = 'n' :: ('u' :: 'l' :: 'l' :: rest) from rfl]
    exact skipWs_pre pre _ _ hpre (by decide)
  simp only [parseVal]
  rw [hskip]
  rfl

/-- Booleans round-trip. -/
theorem LvalP_bool (b : Bool) : LvalP (.bool b) := by
  intro lvl pre rest fuel hpre hrest hfuel
  rcases Nat.exists_eq_succ_of_ne_zero (show fuel ≠ 0 by simp [fuelNeed] at hfuel; omega) with ⟨f, rfl⟩
  cases b with
  | true =>
    have hskip : skipWs (pre ++ (printVal lvl (.bool true) ++ rest))
        = 't' :: ('r' :: 'u' :: 'e' :: rest) := by
      rw [show printVal lvl (.bool true) ++ rest = 't' :: ('r' :: 'u' :: 'e' :: rest) from rfl]
      exact skipWs_pre pre _ _ hpre (by decide)
    simp only [parseVal]
    rw [hskip]
    rfl
  | false =>
    have hskip : skipWs (pre ++ (printVal lvl (.bool false) ++ rest))
        = 'f' :: ('a' :: 'l' :: 's' :: 'e' :: rest) := by
      rw [show printVal lvl (.bool false) ++ rest = 'f' :: ('a' :: 'l' :: 's' :: 'e' :: rest) from rfl]
      exact skipWs_pre pre _ _ hpre (by decide)
    simp only [parseVal]
    rw [hskip]
    rfl

/-- Integers round-trip. -/
theorem LvalP_num (i : Int) : LvalP (.num i) := by
  intro lvl pre rest fuel hpre hrest hfuel
  rcases Nat.exists_eq_succ_of_ne_zero (show fuel ≠ 0 by simp [fuelNeed] at hfuel; omega) with ⟨f, rfl⟩
  match i with
  | .ofNat n =>
    obtain ⟨d, ds, hds, hdig⟩ := natDigits_cons n
    have hshape : printVal lvl (.num (.ofNat n)) ++ rest = d :: (ds ++ rest) := by
      show intDigits (.ofNat n) ++ rest = _
      rw [show intDigits (.ofNat n) = natDigits n from rfl, hds]
      simp
    have hskip : skipWs (pre ++ (printVal lvl (.num (.ofNat n)) ++ rest)) = d :: (ds ++ rest) := by
      rw [hshape]
      exact skipWs_pre pre _ _ hpre (isDigitChar_not_ws hdig)
    simp only [parseVal]
    rw [hskip]
    simp only [hdig, Bool.true_or, if_true]
    rw [show d :: (ds ++ rest) = (d :: ds) ++ rest by simp, ← hds]
    exact parseNum_natDigits n rest hrest
  | .negSucc m =>
    have hshape : printVal lvl (.num (.negSucc m)) ++ rest
        = '-' :: (natDigits (m + 1) ++ rest) := by
      show intDigits (.negSucc m) ++ rest = _
      simp [intDigits]
    have hskip : skipWs (pre ++ (printVal lvl (.num (.negSucc m)) ++ rest))
        = '-' :: (natDigits (m + 1) ++ rest) := by
      rw [hshape]
      exact skipWs_pre pre _ _ hpre (by decide)
    simp only [parseVal]
    rw [hskip]
    show parseNum ('-' :: (natDigits (m + 1) ++ rest)) = some (.num (Int.negSucc m), rest)
    rw [show '-' :: (natDigits (m + 1) ++ rest) = ('-' :: natDigits (m + 1)) ++ rest by simp]
    exact parseNum_negDigits m rest hrest

/-- Strings round-trip. -/
theorem LvalP_str (s : String) : LvalP (.str s) := by
  intro lvl pre rest fuel hpre hrest hfuel
  rcases Nat.exists_eq_succ_of_ne_zero (show fuel ≠ 0 by simp [fuelNeed] at hfuel; omega) with ⟨f, rfl⟩
  have hshape : printVal lvl (.str s) ++ rest
      = '\x22' :: (escapeList s.toList ++ ('\x22' :: rest)) := by
    show quoteStr s ++ rest = _
    simp [quoteStr]
  have hskip : skipWs (pre ++ (printVal lvl (.str s) ++ rest))
      = '\x22' :: (escapeList s.toList ++ ('\x22' :: rest)) := by
    rw [hshape]
    exact skipWs_pre pre _ _ hpre (by decide)
  have hlen : s.toList.length < (escapeList s.toList ++ ('\x22' :: rest)).length + 1 := by
    have := escapeList_length_ge s.toList
    simp only [List.length_append, List.length_cons]
    omega
  simp only [parseVal]
  rw [hskip]
  show (match parseStrBody ((escapeList s.toList ++ ('\x22' :: rest)).length + 1)
      (escapeList s.toList ++ ('\x22' :: rest)) with
    | some (body, r) => some (J.str (String.mk body), r)
    | none => none) = some (J.str s, rest)
  rw [parseStrBody_escape s.toList _ rest hlen]
  rfl

/-- `allWs` over an append. -/
theorem allWs_append (a b : List Char) : allWs (a ++ b) = (allWs a && allWs b) := by
  simp [allWs]

/-- Non-empty printed element lists round-trip through `parseItems`,
consuming the closing bracket. -/
theorem parse_printItems :
    ∀ (l : List J), (∀ j ∈ l, LvalP j) → l ≠ [] →
    ∀ lvl lvlC pre rest fuel, allWs pre = true → fuelNeedItems l ≤ fuel →
    parseItems fuel (pre ++ (printItems lvl l ++ '\n' :: (indentChars lvlC ++ ']' :: rest)))
      = some (l, rest) := by
  intro l
  induction l with
  | nil => exact fun _ h => absurd rfl h
  | cons x xs ih =>
    intro IH _ lvl lvlC pre rest fuel hpre hfuel
    rcases Nat.exists_eq_succ_of_ne_zero (show fuel ≠ 0 by simp [fuelNeedItems] at hfuel; omega) with ⟨f, rfl⟩
    have hx : LvalP x := IH x (List.mem_cons_self _ _)
    have hpre2 : allWs (pre ++ indentChars lvl) = true := by
      rw [allWs_append, hpre, allWs_indent]
      rfl
    cases xs with
    | nil =>
      have hrearr : pre ++ (printItems lvl [x] ++ '\n' :: (indentChars lvlC ++ ']' :: rest))
          = (pre ++ indentChars lvl)
            ++ (printVal lvl x ++ ('\n' :: (indentChars lvlC ++ ']' :: rest))) := by
        simp [printItems, List.append_assoc]
      have hv := hx lvl (pre ++ indentChars lvl) ('\n' :: (indentChars lvlC ++ ']' :: rest)) f
        hpre2 rfl (by simp [fuelNeedItems, fuelNeedFields] at hfuel; omega)
      have hskip : skipWs ('\n' :: (indentChars lvlC ++ ']' :: rest)) = ']' :: rest := by
        rw [show ('\n' :: (indentChars lvlC ++ ']' :: rest))
            = ('\n' :: indentChars lvlC) ++ (']' :: rest) by simp]
        refine skipWs_pre _ _ _ ?_ (by decide)
        rw [allWs_cons, allWs_indent]
        rfl
      simp only [parseItems]
      rw [hrearr, hv]
      dsimp only
      rw [hskip]
      dsimp only
      rw [if_neg (by decide), if_pos rfl]
    | cons y ys =>
      have hrearr : pre ++ (printItems lvl (x :: y :: ys)
            ++ '\n' :: (indentChars lvlC ++ ']' :: rest))
          = (pre ++ indentChars lvl)
            ++ (printVal lvl x ++ (',' :: '\n' :: (printItems lvl (y :: ys)
              ++ '\n' :: (indentChars lvlC ++ ']' :: rest)))) := by
        simp [printItems, List.append_assoc]
      have hv := hx lvl (pre ++ indentChars lvl)
        (',' :: '\n' :: (printItems lvl (y :: ys) ++ '\n' :: (indentChars lvlC ++ ']' :: rest)))
        f hpre2 rfl (by simp [fuelNeedItems] at hfuel; omega)
      simp only [parseItems]
      rw [hrearr, hv]
      dsimp only
      rw [skipWs_not_ws _ _ (by decide)]
      dsimp only
      rw [if_pos rfl]
      have hrec := ih (fun j hj => IH j (List.mem_cons_of_mem _ hj)) (by simp)
        lvl lvlC ['\n'] rest f rfl (by simp [fuelNeedItems] at hfuel ⊢; omega)
      rw [show ('\n' :: (printItems lvl (y :: ys) ++ '\n' :: (indentChars lvlC ++ ']' :: rest)))
          = ['\n'] ++ (printItems lvl (y :: ys) ++ '\n' :: (indentChars lvlC ++ ']' :: rest))
          from rfl, hrec]

/-- Non-empty printed member lists round-trip through `parseFields`,
consuming the closing brace. -/
theorem parse_printFields :
    ∀ (kv : List (String × J)), (∀ p ∈ kv, LvalP p.2) → kv ≠ [] →
    ∀ lvl lvlC pre rest fuel, allWs pre = true → fuelNeedFields kv ≤ fuel →
    parseFields fuel
        (pre ++ (printFields lvl kv ++ '\n' :: (indentChars lvlC ++ '\x7d' :: rest)))
      = some (kv, rest) := by
  intro kv
  induction kv with
  | nil => exact fun _ h => absurd rfl h
  | cons p ps ih =>
    rcases p with ⟨k, v⟩
    intro IH _ lvl lvlC pre rest fuel hpre hfuel
    rcases Nat.exists_eq_succ_of_ne_zero (show fuel ≠ 0 by simp [fuelNeedFields] at hfuel; omega) with ⟨f, rfl⟩
    have hv0 : LvalP v := IH (k, v) (List.mem_cons_self _ _)
    have hpre2 : allWs (pre ++ indentChars lvl) = true := by
      rw [allWs_append, hpre, allWs_indent]
      rfl
    cases ps with
    | nil =>
      have hrearr : pre ++ (printFields lvl [(k, v)]
            ++ '\n' :: (indentChars lvlC ++ '\x7d' :: rest))
          = (pre ++ indentChars lvl)
            ++ ('\x22' :: (escapeList k.toList
              ++ ('\x22' :: (':' :: ' ' :: (printVal lvl v
                ++ ('\n' :: (indentChars lvlC ++ '\x7d' :: rest))))))) := by
        simp [printFields, quoteStr, List.append_assoc]
      have hskip0 : skipWs (pre ++ (printFields lvl [(k, v)]
            ++ '\n' :: (indentChars lvlC ++ '\x7d' :: rest)))
          = '\x22' :: (escapeList k.toList
              ++ ('\x22' :: (':' :: ' ' :: (printVal lvl v
                ++ ('\n' :: (indentChars lvlC ++ '\x7d' :: rest)))))) := by
        rw [hrearr]
        exact skipWs_pre _ _ _ hpre2 (by decide)
      have hlen : k.toList.length < (escapeList k.toList
          ++ ('\x22' :: (':' :: ' ' :: (printVal lvl v
            ++ ('\n' :: (indentChars lvlC ++ '\x7d' :: rest)))))).length + 1 := by
        have := escapeList_length_ge k.toList
        simp only [List.length_append, List.length_cons]
        omega
      have hval := hv0 lvl [' '] ('\n' :: (indentChars lvlC ++ '\x7d' :: rest)) f
        rfl rfl (by simp [fuelNeedFields, fuelNeedItems] at hfuel; omega)
      have hskip : skipWs ('\n' :: (indentChars lvlC ++ '\x7d' :: rest)) = '\x7d' :: rest := by
        rw [show ('\n' :: (indentChars lvlC ++ '\x7d' :: rest))
            = ('\n' :: indentChars lvlC) ++ ('\x7d' :: rest) by simp]
        refine skipWs_pre _ _ _ ?_ (by decide)
        rw [allWs_cons, allWs_indent]
        rfl
      simp only [parseFields]
      rw [hskip0]
      dsimp only
      rw [if_pos rfl, parseStrBody_escape k.toList _ _ hlen]
      dsimp only
      rw [skipWs_not_ws _ _ (by decide)]
      dsimp only
      rw [if_pos rfl]
      rw [show ([' '] ++ (printVal lvl v ++ ('\n' :: (indentChars lvlC ++ '\x7d' :: rest))))
          = ' ' :: (printVal lvl v ++ ('\n' :: (indentChars lvlC ++ '\x7d' :: rest)))
          from rfl] at hval
      rw [hval]
      dsimp only
      rw [hskip]
      dsimp only
      rw [if_neg (by decide), if_pos rfl]
      rfl
    | cons q qs =>
      have hrearr : pre ++ (printFields lvl ((k, v) :: q :: qs)
            ++ '\n' :: (indentChars lvlC ++ '\x7d' :: rest))
          = (pre ++ indentChars lvl)
            ++ ('\x22' :: (escapeList k.toList
              ++ ('\x22' :: (':' :: ' ' :: (printVal lvl v
                ++ (',' :: '\n' :: (printFields lvl (q :: qs)
                  ++ '\n' :: (indentChars lvlC ++ '\x7d' :: rest)))))))) := by
        simp [printFields, quoteStr, List.append_assoc]
      have hskip0 : skipWs (pre ++ (printFields lvl ((k, v) :: q :: qs)
            ++ '\n' :: (indentChars lvlC ++ '\x7d' :: rest)))
          = '\x22' :: (escapeList k.toList
              ++ ('\x22' :: (':' :: ' ' :: (printVal lvl v
                ++ (',' :: '\n' :: (printFields lvl (q :: qs)
                  ++ '\n' :: (indentChars lvlC ++ '\x7d' :: rest))))))) := by
        rw [hrearr]
        exact skipWs_pre _ _ _ hpre2 (by decide)
      have hlen : k.toList.length < (escapeList k.toList
          ++ ('\x22' :: (':' :: ' ' :: (printVal lvl v
            ++ (',' :: '\n' :: (printFields lvl (q :: qs)
              ++ '\n' :: (indentChars lvlC ++ '\x7d' :: rest))))))).length + 1 := by
        have := escapeList_length_ge k.toList
        simp only [List.length_append, List.length_cons]
        omega
      have hval := hv0 lvl [' ']
        (',' :: '\n' :: (printFields lvl (q :: qs)
          ++ '\n' :: (indentChars lvlC ++ '\x7d' :: rest))) f
        rfl rfl (by simp [fuelNeedFields] at hfuel; omega)
      simp only [parseFields]
      rw [hskip0]
      dsimp only
      rw [if_pos rfl, parseStrBody_escape k.toList _ _ hlen]
      dsimp only
      rw [skipWs_not_ws _ _ (by decide)]
      dsimp only
      rw [if_pos rfl]
      rw [show ([' '] ++ (printVal lvl v ++ (',' :: '\n' :: (printFields lvl (q :: qs)
            ++ '\n' :: (indentChars lvlC ++ '\x7d' :: rest)))))
          = ' ' :: (printVal lvl v ++ (',' :: '\n' :: (printFields lvl (q :: qs)
            ++ '\n' :: (indentChars lvlC ++ '\x7d' :: rest))))
          from rfl] at hval
      rw [hval]
      dsimp only
      rw [skipWs_not_ws _ _ (by decide)]
      dsimp only
      rw [if_pos rfl]
      have hrec := ih (fun j hj => IH j (List.mem_cons_of_mem _ hj)) (by simp)
        lvl lvlC ['\n'] rest f rfl (by simp [fuelNeedFields] at hfuel ⊢; omega)
      rw [show ('\n' :: (printFields lvl (q :: qs)
            ++ '\n' :: (indentChars lvlC ++ '\x7d' :: rest)))
          = ['\n'] ++ (printFields lvl (q :: qs)
            ++ '\n' :: (indentChars lvlC ++ '\x7d' :: rest)) from rfl, hrec]
      rfl

/-- A printed non-empty element list begins with its indent and first value. -/
theorem printItems_cons (lvl : Nat) (x : J) (xs : List J) :
    ∃ T, printItems lvl (x :: xs) = indentChars lvl ++ (printVal lvl x ++ T) := by
  cases xs with
  | nil => exact ⟨[], by simp [printItems]⟩
  | cons y ys =>
    exact ⟨',' :: '\n' :: printItems lvl (y :: ys), by simp [printItems]⟩

/-- A printed non-empty member list begins with its indent and a quote. -/
theorem printFields_cons (lvl : Nat) (p : String × J) (ps : List (String × J)) :
    ∃ T, printFields lvl (p :: ps) = indentChars lvl ++ ('\x22' :: T) := by
  rcases p with ⟨k, v⟩
  cases ps with
  | nil =>
    exact ⟨(escapeList k.toList ++ ['\x22']) ++ (':' :: ' ' :: printVal lvl v),
      by simp [printFields, quoteStr]⟩
  | cons q qs =>
    exact ⟨(escapeList k.toList ++ ['\x22']) ++ (':' :: ' ' :: (printVal lvl v
        ++ ',' :: '\n' :: printFields lvl (q :: qs))),
      by simp [printFields, quoteStr]⟩

/-- Every JSON value round-trips: parsing its printed form returns the value
and the untouched rest of the input. -/
theorem parse_print : ∀ j : J, LvalP j := by
  intro j
  induction j using J.indNested with
  | hnull => exact LvalP_null
  | hbool b => exact LvalP_bool b
  | hnum n => exact LvalP_num n
  | hstr s => exact LvalP_str s
  | harr l IH =>
    intro lvl pre rest fuel hpre hrest hfuel
    rcases Nat.exists_eq_succ_of_ne_zero (show fuel ≠ 0 by simp [fuelNeed] at hfuel; omega) with ⟨f, rfl⟩
    cases l with
    | nil =>
      have hskip : skipWs (pre ++ (printVal lvl (.arr []) ++ rest)) = '[' :: (']' :: rest) := by
        rw [show printVal lvl (.arr []) ++ rest = '[' :: (']' :: rest) from rfl]
        exact skipWs_pre pre _ _ hpre (by decide)
      simp only [parseVal]
      rw [hskip]
      rfl
    | cons x xs =>
      have hshape : printVal lvl (.arr (x :: xs)) ++ rest
          = '[' :: ('\n' :: (printItems (lvl + 1) (x :: xs)
              ++ '\n' :: (indentChars lvl ++ (']' :: rest)))) := by
        simp [printVal, List.append_assoc]
      have hskip : skipWs (pre ++ (printVal lvl (.arr (x :: xs)) ++ rest))
          = '[' :: ('\n' :: (printItems (lvl + 1) (x :: xs)
              ++ '\n' :: (indentChars lvl ++ (']' :: rest)))) := by
        rw [hshape]
        exact skipWs_pre pre _ _ hpre (by decide)
      simp only [parseVal]
      rw [hskip]
      show (match skipWs ('\n' :: (printItems (lvl + 1) (x :: xs)
              ++ '\n' :: (indentChars lvl ++ (']' :: rest)))) with
        | [] => none
        | x0 :: r =>
          if x0 = ']' then some (J.arr [], r)
          else
            match parseItems f ('\n' :: (printItems (lvl + 1) (x :: xs)
                ++ '\n' :: (indentChars lvl ++ (']' :: rest)))) with
            | some (l, r2) => some (J.arr l, r2)
            | none => none) = some (J.arr (x :: xs), rest)
      obtain ⟨c0, t0, hx0, hhead⟩ := printVal_head (lvl + 1) x
      obtain ⟨T, hT⟩ := printItems_cons (lvl + 1) x xs
      have hskip2 : skipWs ('\n' :: (printItems (lvl + 1) (x :: xs)
              ++ '\n' :: (indentChars lvl ++ (']' :: rest))))
          = c0 :: (t0 ++ (T ++ '\n' :: (indentChars lvl ++ (']' :: rest)))) := by
        rw [hT, hx0]
        rw [show ('\n' :: (indentChars (lvl + 1) ++ (c0 :: t0 ++ T)
              ++ '\n' :: (indentChars lvl ++ (']' :: rest))))
            = ('\n' :: indentChars (lvl + 1))
              ++ (c0 :: (t0 ++ (T ++ '\n' :: (indentChars lvl ++ (']' :: rest))))) by
          simp [List.append_assoc]]
        refine skipWs_pre _ _ _ ?_ (headChar_not_ws hhead)
        rw [allWs_cons, allWs_indent]
        rfl
      rw [hskip2]
      dsimp only
      rw [if_neg (headChar_ne_rbracket hhead)]
      have hitems := parse_printItems (x :: xs) IH (by simp) (lvl + 1) lvl ['\n'] rest f
        rfl (by simp [fuelNeed] at hfuel; omega)
      rw [show ('\n' :: (printItems (lvl + 1) (x :: xs)
            ++ '\n' :: (indentChars lvl ++ (']' :: rest))))
          = ['\n'] ++ (printItems (lvl + 1) (x :: xs)
            ++ '\n' :: (indentChars lvl ++ ']' :: rest)) from rfl, hitems]
  | hobj kv IH =>
    intro lvl pre rest fuel hpre hrest hfuel
    rcases Nat.exists_eq_succ_of_ne_zero (show fuel ≠ 0 by simp [fuelNeed] at hfuel; omega) with ⟨f, rfl⟩
    cases kv with
    | nil =>
      have hskip : skipWs (pre ++ (printVal lvl (.obj []) ++ rest))
          = '\x7b' :: ('\x7d' :: rest) := by
        rw [show printVal lvl (.obj []) ++ rest = '\x7b' :: ('\x7d' :: rest) from rfl]
        exact skipWs_pre pre _ _ hpre (by decide)
      simp only [parseVal]
      rw [hskip]
      rfl
    | cons p ps =>
      have hshape : printVal lvl (.obj (p :: ps)) ++ rest
          = '\x7b' :: ('\n' :: (printFields (lvl + 1) (p :: ps)
              ++ '\n' :: (indentChars lvl ++ ('\x7d' :: rest)))) := by
        simp [printVal, List.append_assoc]
      have hskip : skipWs (pre ++ (printVal lvl (.obj (p :: ps)) ++ rest))
          = '\x7b' :: ('\n' :: (printFields (lvl + 1) (p :: ps)
              ++ '\n' :: (indentChars lvl ++ ('\x7d' :: rest)))) := by
        rw [hshape]
        exact skipWs_pre pre _ _ hpre (by decide)
      simp only [parseVal]
      rw [hskip]
      show (match skipWs ('\n' :: (printFields (lvl + 1) (p :: ps)
              ++ '\n' :: (indentChars lvl ++ ('\x7d' :: rest)))) with
        | [] => none
        | x0 :: r =>
          if x0 = '\x7d' then some (J.obj [], r)
          else
            match parseFields f ('\n' :: (printFields (lvl + 1) (p :: ps)
                ++ '\n' :: (indentChars lvl ++ ('\x7d' :: rest)))) with
            | some (kv, r2) => some (J.obj kv, r2)
            | none => none) = some (J.obj (p :: ps), rest)
      obtain ⟨T, hT⟩ := printFields_cons (lvl + 1) p ps
      have hskip2 : skipWs ('\n' :: (printFields (lvl + 1) (p :: ps)
              ++ '\n' :: (indentChars lvl ++ ('\x7d' :: rest))))
          = '\x22' :: (T ++ '\n' :: (indentChars lvl ++ ('\x7d' :: rest))) := by
        rw [hT]
        rw [show ('\n' :: (indentChars (lvl + 1) ++ '\x22' :: T
              ++ '\n' :: (indentChars lvl ++ ('\x7d' :: rest))))
            = ('\n' :: indentChars (lvl + 1))
              ++ ('\x22' :: (T ++ '\n' :: (indentChars lvl ++ ('\x7d' :: rest)))) by
          simp [List.append_assoc]]
        refine skipWs_pre _ _ _ ?_ (by decide)
        rw [allWs_cons, allWs_indent]
        rfl
      rw [hskip2]
      dsimp only
      rw [if_neg (by decide)]
      have hfields := parse_printFields (p :: ps) IH (by simp) (lvl + 1) lvl ['\n'] rest f
        rfl (by simp [fuelNeed] at hfuel; omega)
      rw [show ('\n' :: (printFields (lvl + 1) (p :: ps)
            ++ '\n' :: (indentChars lvl ++ ('\x7d' :: rest))))
          = ['\n'] ++ (printFields (lvl + 1) (p :: ps)
            ++ '\n' :: (indentChars lvl ++ '\x7d' :: rest)) from rfl, hfields]

/-- The items fuel requirement is dominated by the printed length. -/
theorem fuelNeedItems_le (lvl : Nat) : ∀ (l : List J),
    (∀ j ∈ l, ∀ lv, fuelNeed j ≤ (printVal lv j).length + 1) →
    fuelNeedItems l ≤ (printItems lvl l).length + 3 := by
  intro l
  induction l with
  | nil => intro _; simp [fuelNeedItems, printItems]
  | cons x xs ih =>
    intro IH
    cases xs with
    | nil =>
      have hx := IH x (List.mem_cons_self _ _) lvl
      simp only [fuelNeedItems, printItems, List.length_append, indentChars,
        List.length_replicate]
      omega
    | cons y ys =>
      have hx := IH x (List.mem_cons_self _ _) lvl
      have hr := ih (fun j hj => IH j (List.mem_cons_of_mem _ hj))
      simp only [fuelNeedItems, printItems, List.length_append, indentChars,
        List.length_replicate, List.length_cons] at hr ⊢
      omega

/-- The fields fuel requirement is dominated by the printed length. -/
theorem fuelNeedFields_le (lvl : Nat) : ∀ (kv : List (String × J)),
    (∀ p ∈ kv, ∀ lv, fuelNeed p.2 ≤ (printVal lv p.2).length + 1) →
    fuelNeedFields kv ≤ (printFields lvl kv).length + 3 := by
  intro kv
  induction kv with
  | nil => intro _; simp [fuelNeedFields, printFields]
  | cons p ps ih =>
    rcases p with ⟨k, v⟩
    intro IH
    cases ps with
    | nil =>
      have hx := IH (k, v) (List.mem_cons_self _ _) lvl
      simp only [fuelNeedFields, printFields, List.length_append, indentChars,
        List.length_replicate, List.length_cons] at hx ⊢
      omega
    | cons q qs =>
      have hx := IH (k, v) (List.mem_cons_self _ _) lvl
      have hr := ih (fun j hj => IH j (List.mem_cons_of_mem _ hj))
      simp only [fuelNeedFields, printFields, List.length_append, indentChars,
        List.length_replicate, List.length_cons] at hx hr ⊢
      omega

/-- The fuel requirement of a value is dominated by its printed length. -/
theorem fuelNeed_le (j : J) : ∀ lvl, fuelNeed j ≤ (printVal lvl j).length + 1 := by
  induction j using J.indNested with
  | hnull => intro lvl; simp [fuelNeed, printVal]
  | hbool b => intro lvl; cases b <;> simp [fuelNeed, printVal]
  | hnum n => intro lvl; simp [fuelNeed]
  | hstr s => intro lvl; simp [fuelNeed]
  | harr l IH =>
    intro lvl
    cases l with
    | nil => simp [fuelNeed, fuelNeedItems, printVal]
    | cons x xs =>
      have h := fuelNeedItems_le (lvl + 1) (x :: xs) IH
      simp only [fuelNeed, printVal, List.length_append, List.length_cons, indentChars,
        List.length_replicate] at h ⊢
      omega
  | hobj kv IH =>
    intro lvl
    cases kv with
    | nil => simp [fuelNeed, fuelNeedFields, printVal]
    | cons p ps =>
      have h := fuelNeedFields_le (lvl + 1) (p :: ps) IH
      simp only [fuelNeed, printVal, List.length_append, List.length_cons, indentChars,
        List.length_replicate] at h ⊢
      omega

/-- `json.load` inverts `json.dump`: parsing a serialized value returns it. -/
theorem parseJson_dumps (data : J) : parseJson (dumps data) = some data := by
  unfold parseJson dumps
  rw [show (String.mk (printVal 0 data)).toList = printVal 0 data from rfl]
  rw [show (String.mk (printVal 0 data)).length = (printVal 0 data).length from rfl]
  have h := parse_print data 0 [] [] ((printVal 0 data).length + 1) rfl rfl
    (by have := fuelNeed_le data 0; omega)
  rw [show ([] ++ (printVal 0 data ++ ([] : List Char))) = printVal 0 data by simp] at h
  rw [h]
  rfl

/-- C7: confirmed.  Saving any JSON-serializable bundle to any path and
loading from that path returns a semantically equal value — in fact the very
same value, hence in particular equal topic and kind-specific item lists
(byte-level representation plays no role: the parse of the printed text is
the identity). -/
theorem C7_save_load_roundtrip (data : J) (file_path : String) (fs : FS) :
    load_json_file (save_to_json data file_path fs) file_path = data ∧
    bundleField (load_json_file (save_to_json data file_path fs) file_path) "topic"
      = bundleField data "topic" ∧
    bundleField (load_json_file (save_to_json data file_path fs) file_path) "questions"
      = bundleField data "questions" ∧
    bundleField (load_json_file (save_to_json data file_path fs) file_path) "lesson_structure"
      = bundleField data "lesson_structure" ∧
    bundleField (load_json_file (save_to_json data file_path fs) file_path) "flashcards"
      = bundleField data "flashcards" := by
  have hload : load_json_file (save_to_json data file_path fs) file_path = data := by
    unfold load_json_file save_to_json
    rw [if_pos rfl]
    dsimp only
    rw [parseJson_dumps]
  exact ⟨hload, by rw [hload], by rw [hload], by rw [hload], by rw [hload]⟩
